import Mathlib

/-
  Verification development for the bank-statement extraction pipeline
  (banorte_extractor.py, santander_extractor.py, bbva_extractor.py,
  inbursa_extractor.py).

  Modelling conventions:
  * Python floats are modelled as exact rationals (Rat).  All monetary values
    flowing through the pipeline are finite decimals with two fractional
    digits, for which rational arithmetic coincides with the source's float
    arithmetic on every comparison and rounding the code performs.
  * Python's `round` (banker's rounding, round-half-to-even) is modelled by
    `pyRound`; `round(x, 2)` by `round2`.
  * Python `re` patterns are embedded as abstract syntax trees (`Re`) and run
    by a backtracking matcher (`mtc`) that reproduces Python's leftmost,
    greedy/lazy preference-order semantics for the constructs these patterns
    use (character classes, literals, `?`, `*`, `*?`, bounded repetition,
    alternation with left preference, word boundary `\b`).  The matcher
    threads the previous character so `\b` is exact.  The fuel argument is an
    upper bound on the number of star unfoldings; `input length + 2` is
    always sufficient because every star iteration consumes at least one
    character (all starred sub-patterns below are non-nullable).
  * Character classes (`\s`, `\d`, `\w`, upper/lower-casing, accent
    stripping) are modelled over the character repertoire that actually
    occurs in these statements: ASCII plus the Spanish accented letters and
    the non-breaking space.
-/

set_option maxRecDepth 100000

/- `Rat.add`, `Rat.mul`, `Rat.inv` and `Rat.sub` are `@[irreducible]` in the
library, which blocks `decide`-style evaluation of the embedded pipeline on
concrete statements; restore the default reducibility for this file. -/
attribute [local semireducible] Rat.add Rat.mul Rat.inv Rat.sub

/-! ### Character utilities -/

/-- Python `\s` for the character repertoire used here (ASCII whitespace plus
the non-breaking space, which Python's Unicode `\s` also matches). -/
def isWsChar (c : Char) : Bool :=
  c = ' ' || c = '\t' || c = '\n' || c = '\r' || c = '\x0b' || c = '\x0c' || c = '\u00A0'

/-- ASCII digit, Python `\d` restricted to ASCII. -/
def isDigitChar (c : Char) : Bool :=
  '0' ≤ c && c ≤ '9'

/-- Lower-casing for ASCII plus the Spanish accented letters (Python
`str.lower` restricted to this repertoire). -/
def pyLowerChar (c : Char) : Char :=
  if 'A' ≤ c && c ≤ 'Z' then Char.ofNat (c.toNat + 32)
  else if c = 'Á' then 'á' else if c = 'É' then 'é' else if c = 'Í' then 'í'
  else if c = 'Ó' then 'ó' else if c = 'Ú' then 'ú' else if c = 'Ü' then 'ü'
  else if c = 'Ñ' then 'ñ' else c

/-- Upper-casing for ASCII plus the Spanish accented letters (Python
`str.upper` restricted to this repertoire). -/
def pyUpperChar (c : Char) : Char :=
  if 'a' ≤ c && c ≤ 'z' then Char.ofNat (c.toNat - 32)
  else if c = 'á' then 'Á' else if c = 'é' then 'É' else if c = 'í' then 'Í'
  else if c = 'ó' then 'Ó' else if c = 'ú' then 'Ú' else if c = 'ü' then 'Ü'
  else if c = 'ñ' then 'Ñ' else c

/-- Python `\w` (word character) for this repertoire: ASCII alphanumerics,
underscore, and the Spanish accented letters. -/
def isWordChar (c : Char) : Bool :=
  isDigitChar c || ('a' ≤ c && c ≤ 'z') || ('A' ≤ c && c ≤ 'Z') || c = '_' ||
  c = 'á' || c = 'é' || c = 'í' || c = 'ó' || c = 'ú' || c = 'ü' || c = 'ñ' ||
  c = 'Á' || c = 'É' || c = 'Í' || c = 'Ó' || c = 'Ú' || c = 'Ü' || c = 'Ñ'

/-- Python `str.lower`. -/
def pyLower (s : String) : String := String.mk (s.data.map pyLowerChar)

/-- Python `str.upper`. -/
def pyUpper (s : String) : String := String.mk (s.data.map pyUpperChar)

/-- Python `needle in hay` substring containment. -/
def pyContains (hay needle : String) : Bool :=
  decide (needle.data <:+: hay.data)

/-- Python `str.strip()` over a character-set predicate, left side. -/
def stripLeftP (p : Char → Bool) : List Char → List Char
  | [] => []
  | c :: cs => if p c then stripLeftP p cs else c :: cs

/-- Python `str.strip(chars)`: drop characters satisfying `p` from both ends. -/
def pyStripP (p : Char → Bool) (s : List Char) : List Char :=
  (stripLeftP p (stripLeftP p s).reverse).reverse

/-- Python `str.strip()` (whitespace both ends). -/
def pyStrip (s : String) : String := String.mk (pyStripP isWsChar s.data)

/-- Python `str.rstrip()` (whitespace, right end only). -/
def pyRstrip (s : String) : String :=
  String.mk (stripLeftP isWsChar s.data.reverse).reverse

/-- Python `str.replace(old, new)` for a single-character `old`. -/
def pyReplaceChar (old : Char) (new : List Char) (s : List Char) : List Char :=
  s.flatMap (fun c => if c = old then new else [c])

/-! ### Rational utilities: Python rounding -/

/-- Python `round(x)`: round half to even (banker's rounding). -/
def pyRound (q : Rat) : Int :=
  let f : Int := q.floor
  let r : Rat := q - (f : Rat)
  if r < 1/2 then f
  else if 1/2 < r then f + 1
  else if f % 2 = 0 then f else f + 1

/-- Python `round(x, 2)`. -/
def round2 (q : Rat) : Rat := ((pyRound (q * 100) : Int) : Rat) / 100

/-! ### Regex engine

An embedding of the fragment of Python `re` used by the extractors. -/

/-- Regex abstract syntax.  `cls` is a single-character class, `wb` is the
zero-width word boundary `\b`, `opt`/`star` are greedy, `lstar` is the lazy
`*?`. -/
inductive Re where
  | eps
  | cls (p : Char → Bool)
  | wb
  | seq (a b : Re)
  | alt (a b : Re)
  | opt (a : Re)
  | star (a : Re)
  | lstar (a : Re)

/-- A matcher cursor: the character just before the current position (for
`\b`) and the remaining input. -/
structure Cur where
  prev : Option Char
  rest : List Char

/-- Word-boundary test at a cursor position. -/
def bAt (cur : Cur) : Bool :=
  let pw := match cur.prev with | some c => isWordChar c | none => false
  let nw := match cur.rest with | c :: _ => isWordChar c | [] => false
  pw != nw

/-- Structural size of a regex, used to compute a sufficient fuel bound. -/
def reSize : Re → Nat
  | .eps => 1
  | .cls _ => 1
  | .wb => 1
  | .seq a b => reSize a + reSize b + 1
  | .alt a b => reSize a + reSize b + 1
  | .opt a => reSize a + 1
  | .star a => reSize a + 1
  | .lstar a => reSize a + 1

/-- Backtracking matcher.  Returns the list of cursors after all possible
matches of `re` at `cur`, in Python's backtracking preference order (the
head is the match Python returns).  Star iterations that consume nothing are
pruned, matching Python's behaviour for the non-nullable bodies used here.
The recursion is structural on `fuel` so that the definition computes by
kernel reduction; every recursive call decrements `fuel` by one, the input
never grows, and a star self-unfolding strictly shrinks the input, so the
call depth is at most `rest.length * (S + 1) + S` for `S` the regex size:
the fuel supplied by `reFuel` below can never run out. -/
def mtc : Nat → Re → Cur → List Cur
  | 0, _, _ => []
  | fuel + 1, re, cur =>
      match re with
      | .eps => [cur]
      | .wb => if bAt cur then [cur] else []
      | .cls p =>
          match cur.rest with
          | c :: cs => if p c then [⟨some c, cs⟩] else []
          | [] => []
      | .seq a b => (mtc fuel a cur).flatMap (mtc fuel b)
      | .alt a b => mtc fuel a cur ++ mtc fuel b cur
      | .opt a => mtc fuel a cur ++ [cur]
      | .star a =>
          ((mtc fuel a cur).filter (fun c => c.rest.length < cur.rest.length)).flatMap
            (mtc fuel (.star a)) ++ [cur]
      | .lstar a =>
          cur :: ((mtc fuel a cur).filter (fun c => c.rest.length < cur.rest.length)).flatMap
            (mtc fuel (.lstar a))

/-- A fuel amount sufficient for `mtc` on input `s` (see the bound above). -/
def reFuel (re : Re) (s : List Char) : Nat :=
  (s.length + 2) * (reSize re + 2)

/-- The cursor at byte position `i` of `s` (prev = character before `i`). -/
def curAt (s : List Char) (i : Nat) : Cur :=
  ⟨(s.take i).getLast?, s.drop i⟩

/-- The end position of the preferred match of `re` starting exactly at
position `i` of `s` (`None` if no match starts there). -/
def matchEndAt (re : Re) (s : List Char) (i : Nat) : Option Nat :=
  ((mtc (reFuel re s) re (curAt s i)).head?).map (fun c => s.length - c.rest.length)

/-- Python `re.search` from position `i`: the span `(start, end)` of the
leftmost match. -/
def searchFrom (re : Re) (s : List Char) (fuel i : Nat) : Option (Nat × Nat) :=
  match fuel with
  | 0 => none
  | fuel + 1 =>
      if i > s.length then none
      else
        match matchEndAt re s i with
        | some e => some (i, e)
        | none => searchFrom re s fuel (i + 1)

/-- Python `re.search`: span of the leftmost match, or `None`. -/
def reSearch (re : Re) (s : List Char) : Option (Nat × Nat) :=
  searchFrom re s (s.length + 1) 0

/-- Whether `re.search` finds any match. -/
def reTest (re : Re) (s : List Char) : Bool :=
  (reSearch re s).isSome

/-- Python `re.fullmatch` viewed as a Boolean: some backtracking alternative
consumes the whole string. -/
def reFullmatchB (re : Re) (s : List Char) : Bool :=
  (mtc (reFuel re s) re (curAt s 0)).any (fun c => c.rest.isEmpty)

/-- Python `re.finditer`: non-overlapping spans, leftmost first, each match
greedy-preferred; scanning resumes at the end of the previous match. -/
def finditerFrom (re : Re) (s : List Char) (fuel i : Nat) : List (Nat × Nat) :=
  match fuel with
  | 0 => []
  | fuel + 1 =>
      match searchFrom re s (s.length + 1) i with
      | none => []
      | some (j, e) => (j, e) :: finditerFrom re s fuel (if j < e then e else j + 1)

/-- Python `re.finditer` spans. -/
def reFinditer (re : Re) (s : List Char) : List (Nat × Nat) :=
  finditerFrom re s (s.length + 1) 0

/-- The substring of `s` spanned by `(a, b)`. -/
def spanStr (s : List Char) (sp : Nat × Nat) : List Char :=
  (s.drop sp.1).take (sp.2 - sp.1)

/-- Python `re.findall` for a groupless pattern: the matched substrings. -/
def reFindall (re : Re) (s : List Char) : List (List Char) :=
  (reFinditer re s).map (spanStr s)

/-- Replace the given spans (assumed disjoint and ascending, as produced by
`reFinditer`) by `repl`. -/
def subSpans (s : List Char) (repl : List Char) : List (Nat × Nat) → Nat → List Char
  | [], i => s.drop i
  | (a, b) :: sps, i => ((s.drop i).take (a - i)) ++ repl ++ subSpans s repl sps b

/-- Python `re.sub(pat, repl, s)` for a literal replacement. -/
def reSub (re : Re) (repl : List Char) (s : List Char) : List Char :=
  subSpans s repl (reFinditer re s) 0

/-- Python `re.sub(pat, repl, s, count=1)`. -/
def reSub1 (re : Re) (repl : List Char) (s : List Char) : List Char :=
  subSpans s repl ((reFinditer re s).take 1) 0

/-! ### Regex construction helpers -/

/-- Exact single character. -/
def rCh (c : Char) : Re := .cls (fun d => d = c)

/-- Case-insensitive single character (Python `(?i)`). -/
def rChI (c : Char) : Re := .cls (fun d => pyLowerChar d = pyLowerChar c)

/-- Sequential composition of a list of regexes. -/
def rSeqs : List Re → Re
  | [] => .eps
  | [r] => r
  | r :: rs => .seq r (rSeqs rs)

/-- Alternation with Python's left-to-right preference. -/
def rAlts : List Re → Re
  | [] => .cls (fun _ => false)
  | [r] => r
  | r :: rs => .alt r (rAlts rs)

/-- Case-sensitive literal string. -/
def rLit (s : String) : Re := rSeqs (s.data.map rCh)

/-- Case-insensitive literal string. -/
def rLitI (s : String) : Re := rSeqs (s.data.map rChI)

/-- Exactly `n` copies of `a`. -/
def rRep (a : Re) : Nat → Re
  | 0 => .eps
  | n + 1 => .seq a (rRep a n)

/-- At most `n` copies of `a`, greedy (`a{0,n}`). -/
def rUpTo (a : Re) : Nat → Re
  | 0 => .eps
  | n + 1 => .opt (.seq a (rUpTo a n))

/-- Between `m` and `m+k` copies of `a`, greedy (`a{m,m+k}`). -/
def rRange (a : Re) (m k : Nat) : Re := .seq (rRep a m) (rUpTo a k)

/-- At least `m` copies of `a`, greedy (`a{m,}`). -/
def rAtLeast (a : Re) (m : Nat) : Re := .seq (rRep a m) (.star a)

/-- One or more copies, greedy (`a+`). -/
def rPlus (a : Re) : Re := .seq a (.star a)

/-- Python `\d`. -/
def rDig : Re := .cls isDigitChar

/-- Python `\s`. -/
def rWs : Re := .cls isWsChar

/-- Python `\s+`. -/
def rWsP : Re := rPlus rWs

/-- Python `\s*`. -/
def rWsS : Re := .star rWs

/-- Python `.` without DOTALL (any character except newline). -/
def rDot : Re := .cls (fun c => c ≠ '\n')

/-- Python `.` with DOTALL. -/
def rDotAll : Re := .cls (fun _ => true)

/-- Split a character list into space-separated chunks (structural, so that
regex construction reduces definitionally). -/
def wordsOf (s : List Char) : List (List Char) :=
  s.foldr
    (fun c acc =>
      if c = ' ' then [] :: acc
      else
        match acc with
        | [] => [[c]]
        | w :: ws => (c :: w) :: ws)
    []

/-- A case-insensitive literal in which every maximal blank in `s` stands
for `\s+` (convenient for the many `foo\s+bar` patterns). -/
def rWords (s : String) : Re :=
  rSeqs (((wordsOf s.data).filter (fun w => w ≠ [])).map (fun w => rLitI (String.mk w))
    |>.intersperse rWsP)

/-! ### Python `float()` parsing and `_norm_amount` -/

/-- The value categories `float(str)` can produce. -/
inductive PyFloatVal where
  | fin (q : Rat)
  | posInf
  | negInf
  | nan
deriving Repr, DecidableEq

/-- Munch a Python `digitpart` (`digit (["_"] digit)*`): returns the digits
(with underscores removed) and the rest, or `None` if no leading digit. -/
def munchDigitPart : List Char → Option (List Char × List Char)
  | c :: cs =>
      if isDigitChar c then
        let rec go (acc : List Char) : List Char → List Char × List Char
          | d :: ds =>
              if isDigitChar d then go (acc ++ [d]) ds
              else if d = '_' then
                match ds with
                | e :: es => if isDigitChar e then go (acc ++ [e]) es else (acc, d :: ds)
                | [] => (acc, [d])
              else (acc, d :: ds)
          | [] => (acc, [])
        some (go [c] cs)
      else none
  | [] => none

/-- Numeric value of a digit list. -/
def digitsToNat (ds : List Char) : Nat :=
  ds.foldl (fun a c => a * 10 + (c.toNat - 48)) 0

/-- Parse the body of a Python float literal after the optional sign:
`digitpart ["." [digitpart]] [exp] | "." digitpart [exp]` with
`exp = ("e"|"E") [sign] digitpart`.  Returns the exact rational value. -/
def parseFloatBody (s : List Char) : Option Rat := do
  let (ip, fp, rest) ←
    match munchDigitPart s with
    | some (ids, r1) =>
        match r1 with
        | '.' :: r2 =>
            match munchDigitPart r2 with
            | some (fds, r3) => some (ids, fds, r3)
            | none => some (ids, ([] : List Char), r2)
        | _ => some (ids, ([] : List Char), r1)
    | none =>
        match s with
        | '.' :: r2 =>
            match munchDigitPart r2 with
            | some (fds, r3) => some (([] : List Char), fds, r3)
            | none => none
        | _ => none
  let mant : Rat :=
    (digitsToNat ip : Rat) + (digitsToNat fp : Rat) / ((10 : Rat) ^ fp.length)
  match rest with
  | [] => some mant
  | e :: r1 =>
      if e = 'e' ∨ e = 'E' then
        let (neg, r2) :=
          match r1 with
          | '+' :: r2 => (false, r2)
          | '-' :: r2 => (true, r2)
          | _ => (false, r1)
        match munchDigitPart r2 with
        | some (eds, []) =>
            let ex := digitsToNat eds
            some (if neg then mant / (10 : Rat) ^ ex else mant * (10 : Rat) ^ ex)
        | _ => none
      else none

/-- Python `float(str)`: strip whitespace, optional sign, then `inf`,
`infinity`, `nan` (case-insensitive) or a decimal literal.  `None` models
`ValueError`. -/
def pyFloatParse (s : String) : Option PyFloatVal :=
  let t := pyStripP isWsChar s.data
  let (neg, body) :=
    match t with
    | '+' :: r => (false, r)
    | '-' :: r => (true, r)
    | _ => (false, t)
  let low := body.map pyLowerChar
  if low = "infinity".data ∨ low = "inf".data then
    some (if neg then .negInf else .posInf)
  else if low = "nan".data then some .nan
  else
    match parseFloatBody body with
    | some q => some (.fin (if neg then -q else q))
    | none => none

/-- The text cleanup inside `_norm_amount`: replace the non-breaking space
by a space, then delete `$`, spaces and commas. -/
def normAmountClean (s : String) : String :=
  String.mk
    (((((pyReplaceChar '\u00A0' [' '] s.data)).flatMap (fun c => if c = '$' then [] else [c]))
      |>.flatMap (fun c => if c = ' ' then [] else [c]))
      |>.flatMap (fun c => if c = ',' then [] else [c]))

/-- `_norm_amount` (identical in banorte_extractor.py, santander_extractor.py
and bbva_extractor.py): `None`/empty and unparseable text yield `0.0`,
otherwise the parsed value.  The `posInf`/`negInf`/`nan` branch cannot
arise for monetary tokens; it is mapped to `0` because `Rat` has no such
values (documented deviation, unreachable in the pipeline). -/
def norm_amount (s : Option String) : Rat :=
  match s with
  | none => 0
  | some str =>
      if str.data = [] then 0
      else
        match pyFloatParse (normAmountClean str) with
        | some (.fin q) => q
        | some _ => 0
        | none => 0

/-! ### Dates -/

/-- A calendar date as produced by Python `datetime.date`. -/
structure PyDate where
  year : Int
  month : Nat
  day : Nat
deriving Repr, DecidableEq

/-- Gregorian leap year. -/
def isLeapYear (y : Int) : Bool :=
  y % 4 = 0 && (y % 100 ≠ 0 || y % 400 = 0)

/-- Days in a month. -/
def daysInMonth (y : Int) (m : Nat) : Nat :=
  if m = 2 then (if isLeapYear y then 29 else 28)
  else if m = 4 ∨ m = 6 ∨ m = 9 ∨ m = 11 then 30
  else 31

/-- `datetime.date(y, m, d)`; `None` models the `ValueError` it raises on an
invalid date. -/
def mkDate (y : Int) (m d : Nat) : Option PyDate :=
  if 1 ≤ m ∧ m ≤ 12 ∧ 1 ≤ d ∧ d ≤ daysInMonth y m then some ⟨y, m, d⟩ else none

/-- `d - timedelta(days=1)`. -/
def dateMinusOneDay (d : PyDate) : PyDate :=
  if 1 < d.day then ⟨d.year, d.month, d.day - 1⟩
  else if 1 < d.month then ⟨d.year, d.month - 1, daysInMonth d.year (d.month - 1)⟩
  else ⟨d.year - 1, 12, 31⟩

/-- `MES_ABREV` (same table in banorte_extractor.py and
santander_extractor.py). -/
def MES_ABREV : List (String × Nat) :=
  [("ene", 1), ("feb", 2), ("mar", 3), ("abr", 4), ("may", 5), ("jun", 6),
   ("jul", 7), ("ago", 8), ("sep", 9), ("set", 9), ("oct", 10), ("nov", 11), ("dic", 12)]

/-- Dictionary `.get` on `MES_ABREV`. -/
def mesAbrevGet (k : String) : Option Nat :=
  (MES_ABREV.find? (fun p => p.1 = k)).map (fun p => p.2)

/-! ### Shared monetary regexes -/

/-- `AMOUNT_RE` / `_AMOUNT_RE` (santander, bbva, banorte):
`\$?\s*\d{1,3}(?:,\d{3})*\.\d{2}`. -/
def reAmount : Re :=
  rSeqs [.opt (rCh '$'), rWsS, rRange rDig 1 2,
         .star (.seq (rCh ',') (rRep rDig 3)), rCh '.', rRep rDig 2]

/-- banorte `_AMT_CORE`: `(?:\$?\s*\d{1,3}(?:,\d{3})*\.\d{2}|0(?:\.0{1,2})?)`. -/
def reAmtCore : Re :=
  .alt reAmount (.seq (rCh '0') (.opt (.seq (rCh '.') (rRange (rCh '0') 1 1))))

/-- banorte `_AMT_RUN_RE`: a run of 2 or 3 contiguous amounts,
`core(?:\s+core){1,2}`. -/
def reAmtRun : Re :=
  .seq reAmtCore (rRange (.seq rWsP reAmtCore) 1 1)

/-- The character class `[A-Za-zÁá]`. -/
def rAlphaEs : Re :=
  .cls (fun c => ('A' ≤ c && c ≤ 'Z') || ('a' ≤ c && c ≤ 'z') || c = 'Á' || c = 'á')

/-- banorte `_DATE_TOKEN`: `(\d{2}-[A-Za-zÁá]{3}-\d{2})` (IGNORECASE adds
nothing beyond the class shown). -/
def reDateTokenBan : Re :=
  rSeqs [rRep rDig 2, rCh '-', rRep rAlphaEs 3, rCh '-', rRep rDig 2]

/-! ### banorte_extractor.py -/

/-- banorte `_HEADER_OR_FOOTER_PAT` (case-insensitive alternation of footer
phrases). -/
def reHeaderOrFooterBan : Re :=
  rAlts
    [ rWords "línea directa para su empresa",
      rSeqs [rWords "visita nuestra p", .cls (fun c => c = 'a' ∨ c = 'á' ∨ c = 'A' ∨ c = 'Á'), rLitI "gina"],
      rLitI "www.banorte.com",
      rWords "banco mercantil del norte",
      rSeqs [rWords "estado de cuenta", rWsS, rCh '/', rWsS, rWords "fecha descrip"],
      rSeqs [rLitI "fecha", .opt (rChI 's'), rWsP, rLitI "descripci",
             .cls (fun c => c = 'o' ∨ c = 'ó' ∨ c = 'O' ∨ c = 'Ó'), rLitI "n", rWsS,
             rCh '/', rWsS, rLitI "establecimiento", .lstar rDot, rLitI "saldo"],
      rSeqs [rWords "ganancia anual total", rWsS, rCh '(', rLitI "gat", rCh ')'],
      rWords "gat nominal",
      rLitI "advertencia:",
      rWords "cuando no reciba su estado de cuenta" ]

/-- banorte `_STOP_TRAIL_PAT` (case-insensitive; `(?s)` is irrelevant, no
unescaped dot occurs). -/
def reStopTrailBan : Re :=
  rAlts
    [ rSeqs [.wb, rLitI "OTROS", rWsS, .cls (fun c => c = '▼' ∨ c = '>')],
      rWords "Folio Fecha Tipo de Cargo",
      rWords "Referencia de Abreviaturas",
      rWords "COMPROBANTE FISCAL DIGITAL",
      rSeqs [.wb, rLitI "IPAB", .wb],
      rLitI "www.ipab.org.mx" ]

/-- banorte `_classify`, deposit-keyword test: any of the literal keywords is
a substring of the upper-cased description. -/
def banorteHasAbono (descUpper : String) : Bool :=
  ["SPEI RECIBIDO", "ABONO", "DEPÓSITO", "DEPOSITO", "INTERESES",
   "DEPOSITO DE CUENTA", "DE CUENTA DE TERCEROS (ABONO)"].any
    (fun k => pyContains descUpper k)

/-- banorte `\bI\.?S\.?R\b`. -/
def reISR : Re :=
  rSeqs [.wb, rCh 'I', .opt (rCh '.'), rCh 'S', .opt (rCh '.'), rCh 'R', .wb]

/-- banorte `_classify`, withdrawal-keyword test (keywords or the ISR
regex). -/
def banorteHasRetiro (descUpper : String) : Bool :=
  ["RETIRO", "PAGO", "COMPRA", "COMISION", "COMISIÓN", "TRASPASO",
   "IVA", "I.V.A", "PAGO TERCEROS", "TRASPASO A CUENTA DE TERCEROS"].any
    (fun k => pyContains descUpper k)
  || reTest reISR descUpper.data

/-- banorte `_classify(desc_upper, monto) -> (retiro, deposito)`: deposit
keywords are checked first, then withdrawal keywords, and the default is a
deposit. -/
def banorte_classify (descUpper : String) (monto : Rat) : Rat × Rat :=
  if monto = 0 then (0, 0)
  else if banorteHasAbono descUpper then (0, monto)
  else if banorteHasRetiro descUpper then (monto, 0)
  else (0, monto)

/-- banorte `_extract_amount_run`: take the right-most run of 2-3 contiguous
amounts (fall back to the last isolated amount), remove it from the text and
return the values. -/
def banorte_extract_amount_run (s0 : String) : String × List Rat :=
  let s := (pyRstrip s0).data
  let runs := reFinditer reAmtRun s
  match runs.getLast? with
  | some m =>
      let runTxt := spanStr s m
      let tokens := reFindall reAmtCore runTxt
      let desc := String.mk (stripLeftP isWsChar ((s.take m.1) ++ (s.drop m.2)).reverse).reverse
      (desc, tokens.map (fun t => norm_amount (some (String.mk t))))
  | none =>
      match (reFinditer reAmtCore s).getLast? with
      | some m =>
          let desc := String.mk (stripLeftP isWsChar ((s.take m.1) ++ (s.drop m.2)).reverse).reverse
          (desc, [norm_amount (some (String.mk (spanStr s m)))])
      | none => (String.mk s, [])

/-- The character class `[ÓO]` under `(?i)`. -/
def rOAcc : Re := .cls (fun c => pyLowerChar c = 'o' ∨ pyLowerChar c = 'ó')

/-- banorte `_parse_fecha_es`: strip/lower the token, match two digits, a
separator (dash, slash or space), three letters of `[a-zá]`, a separator and
two digits, anchored at both ends (a fixed 9-character shape), look the
month up in `MES_ABREV` and build the date; `None` models the raised
`ValueError`. -/
def parse_fecha_es (s : String) : Option PyDate :=
  let s0 := pyReplaceChar '\u00A0' [' '] (pyLower (pyStrip s)).data
  let sepB : Char → Bool := fun c => c = '-' || c = '/' || c = ' '
  let lowAl : Char → Bool := fun c => ('a' ≤ c && c ≤ 'z') || c = 'á'
  match s0 with
  | [d1, d2, sep1, a1, a2, a3, sep2, y1, y2] =>
      if isDigitChar d1 && isDigitChar d2 && sepB sep1 && lowAl a1 && lowAl a2 &&
         lowAl a3 && sepB sep2 && isDigitChar y1 && isDigitChar y2 then
        let d := digitsToNat [d1, d2]
        let mon := mesAbrevGet (String.mk ([a1, a2, a3].map (fun c => if c = 'á' then 'a' else c)))
        match mon with
        | some m => mkDate (2000 + (digitsToNat [y1, y2] : Int)) m d
        | none => none
      else none
  | _ => none

/-- A movement row produced by banorte `_parse_section_to_rows`. -/
structure BanorteRow where
  date : PyDate
  description : String
  deposit : Rat
  withdrawal : Rat
  balance : Option Rat
deriving Repr, DecidableEq

/-- banorte `_parse_section_to_rows`, lines 323-344 (the per-chunk tail of
the loop): interpret the right-most amount run of the date-row body and
build the row.  A 3-run is assigned `(deposit, withdrawal, balance)` in
left-to-right order with no reconciliation; a 2-run is classified by
keywords; a single amount is the balance. -/
def banorte_row_of_body (fdate : PyDate) (body : String) : BanorteRow :=
  let (bodyClean, tail) := banorte_extract_amount_run body
  let (dep, ret, bal) :=
    match tail with
    | [a, b, c] => (a, b, some c)
    | [monto, b] =>
        let (w, d) := banorte_classify (pyUpper bodyClean) monto
        (d, w, some b)
    | [a] => ((0 : Rat), (0 : Rat), some a)
    | _ => ((0 : Rat), (0 : Rat), (none : Option Rat))
  let desc := pyStrip (String.mk (reSub rWsP [' '] bodyClean.data))
  { date := fdate, description := desc, deposit := round2 dep, withdrawal := round2 ret,
    balance := bal.map round2 }

/-- banorte `_parse_section_to_rows`: cut the block at the first
`_STOP_TRAIL_PAT` sentinel, optionally emit the `SALDO ANTERIOR` row, then
one row per date token. -/
def banorte_parse_section_to_rows (blockText : String) (periodStart : Option PyDate) :
    List BanorteRow :=
  if blockText.data = [] then []
  else
    let txt0 :=
      match reSearch reStopTrailBan blockText.data with
      | some (cs, _) => blockText.data.take cs
      | none => blockText.data
    let txt := pyReplaceChar '\u00A0' [' '] txt0
    let saldoRows : List BanorteRow :=
      match reSearch reDateTokenBan txt with
      | some (ms, _) =>
          let pfx := txt.take ms
          if pyContains (pyUpper (String.mk pfx)) "SALDO ANTERIOR" then
            let am := reFindall reAmount pfx
            let saldo :=
              match am.getLast? with
              | some a => norm_amount (some (String.mk a))
              | none => 0
            let dprev :=
              match periodStart with
              | some p => dateMinusOneDay p
              | none => ⟨1970, 1, 1⟩
            [{ date := dprev, description := "SALDO ANTERIOR", deposit := 0, withdrawal := 0,
               balance := some (round2 saldo) }]
          else []
      | none => []
    let ms := reFinditer reDateTokenBan txt
    let n := ms.length
    let bodyRows := (List.range n).filterMap (fun i =>
      match ms.get? i with
      | none => none
      | some m =>
          let endP :=
            match ms.get? (i + 1) with
            | some m2 => m2.1
            | none => txt.length
          let chunk := pyStripP isWsChar ((txt.drop m.1).take (endP - m.1))
          let fraw := spanStr txt m
          match parse_fecha_es (String.mk fraw) with
          | none => none
          | some fdate =>
              let body0 := pyStripP
                (fun c => c = ' ' || c = '\t' || c = ':' || c = '-' || c = '\n' || c = '\r')
                (chunk.drop fraw.length)
              let body :=
                if i = n - 1 then
                  match reSearch reStopTrailBan body0 with
                  | some (cs, _) => (stripLeftP isWsChar (body0.take cs).reverse).reverse
                  | none => body0
                else body0
              some (banorte_row_of_body fdate (String.mk body)))
    saldoRows ++ bodyRows

/-- banorte `pat_start` inside `_slice_sections`:
`DETALLE\s+DE\s+MOVIMIENTOS.*?<label>` with IGNORECASE and DOTALL, the label
alternation coming from `_make_label_pat` (escaped literals). -/
def reDetalleStart (labels : List String) : Re :=
  rSeqs [rWords "DETALLE DE MOVIMIENTOS", .lstar rDotAll, rAlts (labels.map rLitI)]

/-- banorte `pat_end` inside `_slice_sections`. -/
def rePatEndBan : Re :=
  rAlts
    [ rSeqs [rWords "ENLACE NEGOCIOS", rWsP, .alt (rLitI "BASICA") (rLitI "AVANZADA")],
      rWords "INVERSION ENLACE NEGOCIOS",
      rWords "SALDO PROMEDIO",
      rWords "RESUMEN DEL PERIODO",
      rWords "RESUMEN INTEGRAL" ]

/-- banorte table-header pattern removed by `re.sub` inside
`_slice_sections`. -/
def reTableHeaderBan : Re :=
  rSeqs [.wb, rLitI "FECHA", rWsP, rLitI "DESCRIPCI", rOAcc, rLitI "N", rWsS, rCh '/', rWsS,
         rLitI "ESTABLECIMIENTO", rWsP, rLitI "MONTO", rWsP, rLitI "DEL", rWsP, rLitI "DEP",
         rOAcc, rLitI "SITO", rWsP, rLitI "MONTO", rWsP, rLitI "DEL", rWsP, rLitI "RETIRO",
         rWsP, rLitI "SALDO", .wb]

/-- The block-collection loop of banorte `_slice_sections`: find the next
`pat_start` match, take text up to the next `pat_end` (or end of text),
apply the table-header deletion (first loop only) and the
header/footer and stop-trail cuts, then continue after the block. -/
def banorteSliceLoop (withHeaderSub : Bool) (t : List Char) (startRe : Re) :
    Nat → Nat → List (List Char)
  | 0, _ => []
  | fuel + 1, pos =>
      match searchFrom startRe t (t.length + 1) pos with
      | none => []
      | some (_, mEnd) =>
          let start := mEnd
          let endP :=
            match searchFrom rePatEndBan t (t.length + 1) start with
            | some (es, _) => es
            | none => t.length
          let raw0 := (t.drop start).take (endP - start)
          let raw1 := if withHeaderSub then reSub reTableHeaderBan [' '] raw0 else raw0
          let raw2 :=
            match reSearch reHeaderOrFooterBan raw1 with
            | some (cs, _) => raw1.take cs
            | none => raw1
          let raw3 :=
            match reSearch reStopTrailBan raw2 with
            | some (cs, _) => raw2.take cs
            | none => raw2
          raw3 :: banorteSliceLoop withHeaderSub t startRe fuel endP

/-- banorte `_slice_sections` for a list-valued `section_label`: collect the
`DETALLE DE MOVIMIENTOS ... <label>` blocks (with the fallback scan keyed on
the bare label when no block was found) and join them with newlines. -/
def banorte_slice_sections (fullText : String) (labels : List String) : String :=
  let t := fullText.data
  let blocks := banorteSliceLoop true t (reDetalleStart labels) (t.length + 1) 0
  let blocks :=
    if blocks = [] then banorteSliceLoop false t (rAlts (labels.map rLitI)) (t.length + 1) 0
    else blocks
  String.mk (List.intercalate ['\n'] blocks)

/-! ### santander_extractor.py -/

/-- santander `PAGINA_WORD_PAT`: `(?i)\bP[\W_]*GINA\s*\d+\s*DE\s*\d+\b`. -/
def rePaginaWord : Re :=
  rSeqs [.wb, rChI 'P', .star (.cls (fun c => ¬ isWordChar c ∨ c = '_')), rLitI "GINA",
         rWsS, rPlus rDig, rWsS, rLitI "DE", rWsS, rPlus rDig, .wb]

/-- santander `PP_NUM_PAT`: `(?i)\bP-?P\.?\s*\d+\b`. -/
def rePpNum : Re :=
  rSeqs [.wb, rChI 'P', .opt (rCh '-'), rChI 'P', .opt (rCh '.'), rWsS, rPlus rDig, .wb]

/-- santander `_strip_page_garbage`: delete pagination tokens and compact
whitespace. -/
def santander_strip_page_garbage (s : String) : String :=
  let s1 := reSub rePaginaWord [] s.data
  let s2 := reSub rePpNum [] s1
  pyStrip (String.mk (reSub rWsP [' '] s2))

/-- santander `TOTAL_PAT`: `(?i)\bTOTAL\b`. -/
def reTotal : Re := rSeqs [.wb, rLitI "TOTAL", .wb]

/-- santander `SALDO_FINAL_PAT`: `(?i)SALDO\s+FINAL\s+DEL\s+PERIODO`. -/
def reSaldoFinal : Re := rWords "SALDO FINAL DEL PERIODO"

/-- santander `_has_total_or_final`. -/
def santander_has_total_or_final (s : String) : Bool :=
  reTest reTotal s.data || reTest reSaldoFinal s.data

/-- santander `BANCOINVEX_TAG_RE`: `(?i)BANCO\s*INVEX`. -/
def reBancoInvexTag : Re := rSeqs [rLitI "BANCO", rWsS, rLitI "INVEX"]

/-- santander `BANCOINVEX_FAKE_AMT_RE`: `\b0(?:,\d{3}){2,}\.\d{2}\b`. -/
def reFakeAmt : Re :=
  rSeqs [.wb, rCh '0', rAtLeast (.seq (rCh ',') (rRep rDig 3)) 2, rCh '.', rRep rDig 2, .wb]

/-- The while loop of santander `_extract_tail_run`: grow the tail leftwards
through matches separated from the current start only by blanks, keeping at
most `maxn` matches.  `earlier` is the match list left of the last match, in
right-to-left order. -/
def santTailGrow (s : List Char) (maxn : Nat) : Nat → Nat → List (Nat × Nat) → List (Nat × Nat)
  | _, _, [] => []
  | curStart, count, m :: rest =>
      if count < maxn then
        if pyStripP isWsChar ((s.drop m.2).take (curStart - m.2)) = [] then
          m :: santTailGrow s maxn m.1 (count + 1) rest
        else []
      else []

/-- The contiguous right-most block of at most `maxn` amount matches (the
tail-selection loop of santander `_extract_tail_run`), in left-to-right
order. -/
def santTailPick (s : List Char) (maxn : Nat) (ms : List (Nat × Nat)) : List (Nat × Nat) :=
  match ms.reverse with
  | [] => []
  | last :: earlier => (santTailGrow s maxn last.1 1 earlier).reverse ++ [last]

/-- The per-match BANCO INVEX filter of santander `_extract_tail_run`:
`True` when the match text, with `$` and spaces removed, does NOT fullmatch
`BANCOINVEX_FAKE_AMT_RE`. -/
def santFakeFree (s : List Char) (m : Nat × Nat) : Bool :=
  ¬ reFullmatchB reFakeAmt
    ((spanStr s m).flatMap (fun c => if c = '$' ∨ c = ' ' then [] else [c]))

/-- The amount-match list of santander `_extract_tail_run`: all `AMOUNT_RE`
matches, filtered by `santFakeFree` when the line mentions BANCO INVEX. -/
def santMatches (s : List Char) : List (Nat × Nat) :=
  let ms0 := reFinditer reAmount s
  if reTest reBancoInvexTag s then ms0.filter (santFakeFree s) else ms0

/-- The pre-processed text of santander `_extract_tail_run`: non-breaking
spaces replaced, right-stripped, page garbage removed. -/
def santTailText (line : String) : List Char :=
  (santander_strip_page_garbage
    (pyRstrip (String.mk (pyReplaceChar '\u00A0' [' '] line.data)))).data

/-- santander `_extract_tail_run`: strip page garbage, find all amounts
(dropping BANCO INVEX fake amounts of the form `0,000,xxx.xx` when the line
mentions BANCO INVEX), and split off the right-most contiguous run of at
most `maxn` amounts. -/
def santander_extract_tail_run (line : String) (maxn : Nat) : String × List Rat :=
  let s := santTailText line
  let ms := santMatches s
  match santTailPick s maxn ms with
  | [] => (String.mk s, [])
  | tail =>
      let curStart := ((tail.head?).map (fun m => m.1)).getD 0
      let desc := String.mk (stripLeftP isWsChar (s.take curStart).reverse).reverse
      (desc, tail.map (fun m => norm_amount (some (String.mk (spanStr s m)))))

/-- santander `_norm_u`: upper-case, strip accents, compact whitespace. -/
def santDeaccent (c : Char) : Char :=
  if c = 'Á' then 'A' else if c = 'É' then 'E' else if c = 'Í' then 'I'
  else if c = 'Ó' then 'O' else if c = 'Ú' then 'U' else if c = 'Ü' then 'U'
  else if c = 'Ñ' then 'N' else c

/-- santander `_norm_u`. -/
def santander_norm_u (s : String) : String :=
  if s.data = [] then ""
  else
    let u := (pyUpper s).data.map santDeaccent
    pyStrip (String.mk (reSub rWsP [' '] u))

/-- santander `_has_tokens`: token containment both on the normalised text
and on its compacted (alphanumeric-only) form. -/
def santander_has_tokens (desc : String) (tokens : List String) : Bool :=
  let u0 := santander_norm_u desc
  let u1 := String.mk (u0.data.filter (fun c => ('A' ≤ c && c ≤ 'Z') || isDigitChar c))
  tokens.any (fun t =>
    let t0 := santander_norm_u t
    let t1 := String.mk (t0.data.filter (fun c => ('A' ≤ c && c ≤ 'Z') || isDigitChar c))
    pyContains u0 t0 || pyContains u1 t1)

/-- santander `ABONO_KEYS`. -/
def ABONO_KEYS : List String :=
  ["ABONO", "ABO ", "DEPOSITO", "RECIBIDO", "SPEI RECIBIDO",
   "INTERES", "INTERESES", "DEVOLUCION", "REEMBOLSO", "TRASPASO RECIBIDO"]

/-- santander `RETIRO_KEYS`. -/
def RETIRO_KEYS : List String :=
  ["RETIRO", "PAGO", "ENVIADO", "TRANSFERENCIA SPEI", "SPEI HORA", "SPEI ENVIADO",
   "COMISION", "IVA", "COMPRA", "COBRO",
   "RETENCION", "ISR", "MEMBRESIA", "MEMBRES", "CARGO", "CUOTA", "ANUALIDAD",
   "SEGURO", "SERVICIO", "MANTENIMIENTO",
   "APORT", "LINEA CAPTURA", "CAPTURA INTERNET"]

/-- santander `_classify_by_keywords(desc, monto) -> (retiro, deposito)`:
credit keywords first, then debit keywords, default deposit. -/
def santander_classify_by_keywords (descUpper : String) (monto : Rat) : Rat × Rat :=
  if monto = 0 then (0, 0)
  else if santander_has_tokens descUpper ABONO_KEYS then (0, monto)
  else if santander_has_tokens descUpper RETIRO_KEYS then (monto, 0)
  else (0, monto)

/-- santander `_reconcile_amounts(desc, dep, ret) -> (dep, ret)`: resolve a
transaction to a single side using the keyword lists; when both sides are
non-zero and the keywords are ambiguous, the deposit is zeroed. -/
def santander_reconcile_amounts (desc : String) (dep0 ret0 : Rat) : Rat × Rat :=
  let dep := dep0
  let ret := ret0
  let hasAbono := santander_has_tokens desc ABONO_KEYS
  let hasRetiro := santander_has_tokens desc RETIRO_KEYS
  let (dep, ret) :=
    if dep > 0 ∧ ret > 0 then
      if hasAbono ∧ ¬ hasRetiro then (dep, (0 : Rat))
      else if hasRetiro ∧ ¬ hasAbono then ((0 : Rat), ret)
      else ((0 : Rat), ret)
    else if dep > 0 ∧ ret = 0 ∧ hasRetiro ∧ ¬ hasAbono then ((0 : Rat), dep)
    else if ret > 0 ∧ dep = 0 ∧ hasAbono ∧ ¬ hasRetiro then (ret, (0 : Rat))
    else (dep, ret)
  (round2 dep, round2 ret)

/-- santander `TxRow`. -/
structure SantTxRow where
  f_oper : Option PyDate := none
  folio : Option String := none
  desc : String := ""
  deposito : Rat := 0
  retiro : Rat := 0
  saldo : Option Rat := none
deriving Repr, DecidableEq

/-- The two movement sections of a Santander statement. -/
inductive SantSection where
  | cuenta
  | inver
deriving Repr, DecidableEq

/-- The two per-section output lists of `extract_santander_to_xlsx`. -/
structure SantLists where
  cheques : List SantTxRow
  inver : List SantTxRow
deriving Repr, DecidableEq

/-- santander `flush_current` (closure in `extract_santander_to_xlsx`):
reconcile the open row's amounts and append it to the active section's
list; do nothing when there is no open row or no section. -/
def santander_flush_current (st : SantLists) (cur : Option SantTxRow)
    (sect : Option SantSection) : SantLists :=
  match cur, sect with
  | some c, some sec =>
      let (d, r) := santander_reconcile_amounts c.desc c.deposito c.retiro
      let c2 := { c with deposito := d, retiro := r }
      match sec with
      | .cuenta => { st with cheques := st.cheques ++ [c2] }
      | .inver => { st with inver := st.inver ++ [c2] }
  | _, _ => st

/-- santander end-of-page epilogue (lines 821-824 of
`extract_santander_to_xlsx`): flush the open transaction unconditionally and
clear both the open row and the section before the next page. -/
def santander_page_end (st : SantLists) (cur : Option SantTxRow)
    (sect : Option SantSection) : SantLists × Option SantTxRow × Option SantSection :=
  (santander_flush_current st cur sect, none, none)

/-- santander `_pick_amount`. -/
def santander_pick_amount (s : Option String) (preferFirst : Bool) : Option Rat :=
  match s with
  | none => none
  | some str =>
      if str.data = [] then none
      else
        let t := pyStrip (String.mk (pyReplaceChar '\u00A0' [' '] str.data))
        if t = "0" ∨ t = "0.0" ∨ t = "0.00" then some 0
        else
          let m := reFindall reAmount t.data
          match (if preferFirst then m.head? else m.getLast?) with
          | some v => some (norm_amount (some (String.mk v)))
          | none => none

/-- santander run-length interpretation for a date row (lines 732-742 of
`extract_santander_to_xlsx`): result is `(deposito, retiro, saldo)`.
A 3-run is `(deposit, withdrawal, balance)` left-to-right; a 2-run is
classified by keywords with the second value the balance; a single amount is
the balance unless the row mentions a totals marker. -/
def santander_run_interpret (descFb rowText : String) (tail : List Rat) :
    Rat × Rat × Option Rat :=
  match tail with
  | [a, b, c] => (a, b, some c)
  | [a, b] =>
      let (wv, dv) := santander_classify_by_keywords (pyUpper descFb) a
      (dv, wv, some b)
  | [a] =>
      if santander_has_total_or_final rowText then
        let (wv, dv) := santander_classify_by_keywords (pyUpper descFb) a
        (dv, wv, none)
      else (0, 0, some a)
  | _ => (0, 0, none)

/-- santander date-row amount assembly (lines 730-758 and 766 of
`extract_santander_to_xlsx`): combine the tail-run fallback with the
column-picked amounts (columns are suppressed on totals rows and whenever
the tail run has length at least 2), then reconcile.  `descTxt` is the
cleaned description computed on lines 752-754, which only feeds the
keyword-based reconciliation here. -/
def santander_date_row_amounts (lineWoDate rowText : String)
    (depRaw retRaw salRaw : String) (descTxt : String) : Rat × Rat × Option Rat :=
  let (descFb, tail) := santander_extract_tail_run lineWoDate 3
  let (depFb, retFb, salFb) := santander_run_interpret descFb rowText tail
  let depCol0 := santander_pick_amount (some depRaw) true
  let retCol0 := santander_pick_amount (some retRaw) true
  let salCol0 := santander_pick_amount (some salRaw) false
  let (depCol1, retCol1, salCol1) :=
    if santander_has_total_or_final rowText then (none, none, none)
    else (depCol0, retCol0, salCol0)
  let (depCol, retCol, salCol) :=
    if 2 ≤ tail.length then (none, none, none) else (depCol1, retCol1, salCol1)
  let depIn := depCol.getD depFb
  let retIn := retCol.getD retFb
  let (depV, retV) := santander_reconcile_amounts descTxt depIn retIn
  (depV, retV, match salCol with | some v => some v | none => salFb)

/-! ### Positioned tokens, column detection and row grouping -/

/-- A positioned word token as delivered by the PDF text layer. -/
structure Word where
  text : String
  x0 : Rat
  x1 : Rat
  top : Rat
  bottom : Rat
deriving Repr, DecidableEq

/-- Python `min(ws, key=lambda x: x["top"])`: the first word with minimal
`top`. -/
def argminTop (ws : List Word) : Option Word :=
  ws.foldl (fun acc w =>
    match acc with
    | none => some w
    | some b => if w.top < b.top then some w else some b) none

/-- The shared column-anchor rule: the horizontal centre of the topmost
header-label hit, else `page_width * default_frac`. -/
def anchorX (hits : List Word) (pageWidth frac : Rat) : Rat :=
  match argminTop hits with
  | some w => (w.x0 + w.x1) / 2
  | none => pageWidth * frac

/-- The words whose upper-cased text contains one of the label variants
(the `hits` lists of `_detect_columns`). -/
def labelHits (words : List Word) (opts : List String) : List Word :=
  words.filter (fun w => opts.any (fun o => pyContains (pyUpper w.text) o))

/-- The `header_y` contribution of one label: the bottom of its topmost hit. -/
def topHitBottom (hits : List Word) : Option Rat :=
  (argminTop hits).map (fun w => w.bottom)

/-- The band list of santander `_detect_columns` (lines 349-356) as a
function of the sorted anchor list: midpoints between adjacent anchors with
a 1-unit margin on each side, the first band starting at 0 and the last
ending at the page width.  (The source writes the six bands out explicitly;
any other anchor-list length is unreachable.) -/
def santBandsOfXs (pageWidth : Rat) (xs : List Rat) : List (Rat × Rat) :=
  match xs with
  | [a, b, c, d, e, f] =>
      [((0 : Rat), (a + b) / 2 - 1),
       ((a + b) / 2 + 1, (b + c) / 2 - 1),
       ((b + c) / 2 + 1, (c + d) / 2 - 1),
       ((c + d) / 2 + 1, (d + e) / 2 - 1),
       ((d + e) / 2 + 1, (e + f) / 2 - 1),
       ((e + f) / 2 + 1, pageWidth)]
  | _ => []

/-- santander `_detect_columns`: six anchors (detected or default
fractions), sorted; bands are midpoints between adjacent anchors with a
1-unit margin on each side, the first starting at 0 and the last ending at
the page width.  Also returns `header_y`. -/
def santander_detect_columns (words : List Word) (pageWidth : Rat) :
    List (Rat × Rat) × Rat :=
  let hFecha := labelHits words ["FECHA"]
  let hFolio := labelHits words ["FOLIO"]
  let hDesc := labelHits words ["DESCRIPCION", "DESCRIPCIÓN"]
  let hDep := labelHits words ["DEPOSITO", "DEPÓSITO"]
  let hRet := labelHits words ["RETIRO"]
  let hSaldo := labelHits words ["SALDO"]
  let xs := List.insertionSort (fun a b : Rat => a ≤ b)
    [anchorX hFecha pageWidth (7/100), anchorX hFolio pageWidth (16/100),
     anchorX hDesc pageWidth (40/100), anchorX hDep pageWidth (62/100),
     anchorX hRet pageWidth (74/100), anchorX hSaldo pageWidth (88/100)]
  let bounds := santBandsOfXs pageWidth xs
  let allHits := [hFecha, hFolio, hDesc, hDep, hRet, hSaldo].filter (fun h => h ≠ [])
  let headerY :=
    if allHits = [] then 0
    else ((allHits.filterMap topHitBottom).foldl max 0)
  (bounds, headerY)

/-- The character class `[aá]` under `(?i)`. -/
def rAAcc : Re := .cls (fun c => pyLowerChar c = 'a' ∨ pyLowerChar c = 'á')

/-- The band list of bbva `_detect_columns` (lines 216-225) as a function of
the sorted anchor list (the source writes the eight bands out explicitly;
any other anchor-list length is unreachable). -/
def bbvaBandsOfXs (pageWidth : Rat) (xs : List Rat) : List (Rat × Rat) :=
  match xs with
  | [a, b, c, d, e, f, g, h] =>
      [((0 : Rat), (a + b) / 2 - 1),
       ((a + b) / 2 + 1, (b + c) / 2 - 1),
       ((b + c) / 2 + 1, (c + d) / 2 - 1),
       ((c + d) / 2 + 1, (d + e) / 2 - 1),
       ((d + e) / 2 + 1, (e + f) / 2 - 1),
       ((e + f) / 2 + 1, (f + g) / 2 - 1),
       ((f + g) / 2 + 1, (g + h) / 2 - 1),
       ((g + h) / 2 + 1, pageWidth)]
  | _ => []

/-- bbva `_detect_columns`: eight anchors (detected or default fractions),
sorted; same midpoint-with-1-unit-margin band construction as santander. -/
def bbva_detect_columns (words : List Word) (pageWidth : Rat) :
    List (Rat × Rat) × Rat :=
  let hCargos := labelHits words ["CARGOS"]
  let hAbonos := labelHits words ["ABONOS"]
  let hOperacion := labelHits words ["OPERACIÓN", "OPERACION"]
  let hLiquidacion := labelHits words ["LIQUIDACIÓN", "LIQUIDACION"]
  let hCoddesc := labelHits words ["COD.", "DESCRIPCIÓN", "DESCRIPCION"]
  let hReferencia := labelHits words ["REFERENCIA"]
  let hOper := labelHits words ["OPER"]
  let hLiq := labelHits words ["LIQ"]
  let xs := List.insertionSort (fun a b : Rat => a ≤ b)
    [anchorX hOper pageWidth (8/100), anchorX hLiq pageWidth (13/100),
     anchorX hCoddesc pageWidth (33/100), anchorX hReferencia pageWidth (51/100),
     anchorX hCargos pageWidth (70/100), anchorX hAbonos pageWidth (78/100),
     anchorX hOperacion pageWidth (86/100), anchorX hLiquidacion pageWidth (94/100)]
  let bounds := bbvaBandsOfXs pageWidth xs
  let allHits := [hCargos, hAbonos, hOperacion, hLiquidacion, hCoddesc, hReferencia,
                  hOper, hLiq].filter (fun h => h ≠ [])
  let headerY :=
    if allHits = [] then 0
    else ((allHits.filterMap topHitBottom).foldl max 0)
  (bounds, headerY)

/-! ### Row grouping (identical `_group_rows` in bbva and santander) -/

/-- Python-dict bucket update (`rows.setdefault(yk, []).append(w)`): append
`w` to the bucket of `k`, creating the bucket at the end on first use. -/
def bput (m : List (Int × List Word)) (k : Int) (w : Word) : List (Int × List Word) :=
  match m with
  | [] => [(k, [w])]
  | (k0, ws) :: rest =>
      if k0 = k then (k0, ws ++ [w]) :: rest else (k0, ws) :: bput rest k w

/-- Bucket lookup. -/
def bget (m : List (Int × List Word)) (k : Int) : List Word :=
  match m with
  | [] => []
  | (k0, ws) :: rest => if k0 = k then ws else bget rest k

/-- Bucket keys in insertion order (Python dict iteration order). -/
def bkeys (m : List (Int × List Word)) : List Int := m.map (fun p => p.1)

/-- The bucket-filling loop of `_group_rows`. -/
def buildRows (body : List Word) (ybin : Rat) : List (Int × List Word) :=
  body.foldl (fun m w => bput m (pyRound (w.top / ybin)) w) []

/-- `_group_rows` (identical in bbva_extractor.py lines 238-253 and
santander_extractor.py lines 364-377): keep tokens strictly below
`header_y + 1.0`, bin them vertically by `round(top / ybin)` with
`ybin = clamp(avg_height * 0.70, 2.0, 4.2)`, and emit buckets sorted
left-to-right, in increasing key order. -/
def group_rows (words : List Word) (headerY : Rat) : List (List Word) :=
  let body := words.filter (fun w => w.top > headerY + 1)
  if body = [] then []
  else
    let heights := body.map (fun w => w.bottom - w.top)
    let avgH := if heights = [] then (8 : Rat) else heights.sum / (heights.length : Rat)
    let ybin := max 2 (min (21/5) (avgH * (7/10)))
    let rows := buildRows body ybin
    (List.insertionSort (fun a b : Int => a ≤ b) (bkeys rows)).map
      (fun k => List.insertionSort (fun a b : Word => a.x0 ≤ b.x0) (bget rows k))

/-! ### bbva_extractor.py: transactions, sentinels, page loop -/

/-- bbva `TxRow`. -/
structure BbvaTxRow where
  f_oper : Option PyDate := none
  f_liq : Option PyDate := none
  desc : String := ""
  cargos : Rat := 0
  abonos : Rat := 0
  s_oper : Option Rat := none
  s_liq : Option Rat := none
deriving Repr, DecidableEq

/-- bbva `_maybe_fix_amount_columns` debit keywords (`debit_kw`,
lines 319-322) applied to the upper-cased description. -/
def bbvaIsDebit (desc : String) : Bool :=
  ["ENVIADO", "PAGO", "COMPRA", "RETIRO", "DÉBITO", "DEBITO",
   "COMISION", "COMISIÓN", "DOMICILI", "N06", "CARGO", "SPEI"].any
    (fun k => pyContains (pyUpper desc) k)

/-- bbva `_maybe_fix_amount_columns` credit keywords (`credit_kw`,
lines 323-326) applied to the upper-cased description. -/
def bbvaIsCredit (desc : String) : Bool :=
  ["ABONO", "DEPÓSITO", "DEPOSITO", "NÓMINA", "NOMINA",
   "RECIBIDO", "INTERESES A FAVOR", "DEVOLUCIÓN", "DEVOLUCION"].any
    (fun k => pyContains (pyUpper desc) k)

/-- bbva `_maybe_fix_amount_columns`: when both amount columns are zero and
exactly one non-zero balance value exists, reassign that value as a credit
(`abonos`) only when a credit keyword matches and no debit keyword does;
in every other case (debit-only, both, or neither) it becomes a debit
(`cargos`). -/
def bbva_maybe_fix_amount_columns (tx : BbvaTxRow) : BbvaTxRow :=
  let cargosZero := tx.cargos = 0
  let abonosZero := tx.abonos = 0
  let saldos := ([tx.s_oper, tx.s_liq].filterMap id).filter (fun v => v ≠ 0)
  if cargosZero ∧ abonosZero then
    match saldos with
    | [v] =>
        if bbvaIsCredit tx.desc ∧ ¬ bbvaIsDebit tx.desc then { tx with abonos := v, s_oper := none, s_liq := none }
        else { tx with cargos := v, s_oper := none, s_liq := none }
    | _ => tx
  else tx

/-- bbva `DASH_ROW_PAT`: `(?:[-–—_]{2,}\s*){6,}`. -/
def reDashRow : Re :=
  let dashC : Re := .cls (fun c => c = '-' ∨ c = '–' ∨ c = '—' ∨ c = '_')
  rAtLeast (.seq (rAtLeast dashC 2) rWsS) 6

/-- bbva `SKIP_PAGE_PAT`:
`(?i)cuadro\s+resumen\s+y\s+gr[aá]fico\s+de\s+movimientos\s+del\s+periodo`. -/
def reSkipPage : Re :=
  rSeqs [rWords "cuadro resumen y gr", rAAcc, rLitI "fico", rWsP,
         rWords "de movimientos del periodo"]

/-- The flattened text of a grouped row: `" ".join(w["text"] for w in r)`. -/
def rowText (r : List Word) : String :=
  String.intercalate " " (r.map (fun w => w.text))

/-- bbva sentinel check 1 (line 504): dashed separator row or the
`ESTIMADO ... CLIENTE` notice. -/
def bbvaRowIsDashOrNotice (r : List Word) : Bool :=
  let t := rowText r
  reTest reDashRow t.data ||
    (pyContains (pyUpper t) "ESTIMADO" && pyContains (pyUpper t) "CLIENTE")

/-- bbva sentinel check 2 (line 509): the `TOTAL DE MOVIMIENTOS` marker. -/
def bbvaRowIsTotals (r : List Word) : Bool :=
  pyContains (pyUpper (rowText r)) "TOTAL DE MOVIMIENTOS"

/-- The sentinel-controlled row scan of `extract_bbva_to_xlsx`
(lines 499-513): returns the rows on which the loop body executes, the
`page_stop` flag and the `saw_totals_here` flag.  The loop `break`s at the
first sentinel row, so no later row of the page is processed. -/
def bbva_scan_rows : List (List Word) → List (List Word) × Bool × Bool
  | [] => ([], false, false)
  | r :: rs =>
      if bbvaRowIsDashOrNotice r then ([], true, false)
      else if bbvaRowIsTotals r then ([], true, true)
      else
        let (pr, ps, st) := bbva_scan_rows rs
        (r :: pr, ps, st)

/-- A bbva page: its extracted text, word tokens and width. -/
structure BbvaPage where
  text : String
  words : List Word
  width : Rat
deriving Repr, DecidableEq

/-- Whether the bbva row scan of a page hits the `TOTAL DE MOVIMIENTOS`
marker. -/
def bbvaPageSawTotals (p : BbvaPage) : Bool :=
  let (_, headerY) := bbva_detect_columns p.words p.width
  (bbva_scan_rows (group_rows p.words headerY)).2.2

/-- The page loop skeleton of `extract_bbva_to_xlsx` (lines 485-614): pages
matching `SKIP_PAGE_PAT` are skipped (`continue`); after a page whose row
scan saw `TOTAL DE MOVIMIENTOS`, `hard_stop_after_this_page` `break`s the
loop, so no later page is processed. -/
def bbva_processed_pages : List BbvaPage → List BbvaPage
  | [] => []
  | p :: ps =>
      if reTest reSkipPage p.text.data then bbva_processed_pages ps
      else if bbvaPageSawTotals p then [p]
      else p :: bbva_processed_pages ps

/-- The bbva end-of-page epilogue (lines 599-614 of
`extract_bbva_to_xlsx`): update `second_cross_active` and
`hard_stop_after_this_page`; the open transaction and the emitted list are
left untouched (cross-page carry-over).  Returns
`(txs, current, second_cross_active, hard_stop_after_this_page)`. -/
def bbva_page_end (txs : List BbvaTxRow) (cur : Option BbvaTxRow) (curIdx : Option Nat)
    (sawTotalsHere hardStop : Bool) :
    List BbvaTxRow × Option BbvaTxRow × Bool × Bool :=
  let secondCross := cur.isSome && curIdx = some 1
  let hardStop2 := hardStop || sawTotalsHere
  (txs, cur, secondCross, hardStop2)

/-- The bbva end-of-document flush (lines 617-618): the still-open
transaction, if any, is appended exactly once. -/
def bbva_doc_end (txs : List BbvaTxRow) (cur : Option BbvaTxRow) : List BbvaTxRow :=
  match cur with
  | some c => txs ++ [c]
  | none => txs

/-! ### inbursa_extractor.py: footer hard stop -/

/-- The NFD-and-drop-marks accent stripping of inbursa `_norm`, restricted to
the Spanish repertoire (ñ decomposes to `n` plus a combining tilde, which is
dropped). -/
def inbStripAccent (c : Char) : Char :=
  if c = 'á' then 'a' else if c = 'é' then 'e' else if c = 'í' then 'i'
  else if c = 'ó' then 'o' else if c = 'ú' then 'u' else if c = 'ü' then 'u'
  else if c = 'ñ' then 'n' else if c = 'Á' then 'A' else if c = 'É' then 'E'
  else if c = 'Í' then 'I' else if c = 'Ó' then 'O' else if c = 'Ú' then 'U'
  else if c = 'Ü' then 'U' else if c = 'Ñ' then 'N' else c

/-- inbursa `_norm`: strip accents, then upper-case. -/
def inbursa_norm (s : String) : String :=
  pyUpper (String.mk (s.data.map inbStripAccent))

/-- inbursa `FOOTER_TERMS`. -/
def INBURSA_FOOTER_TERMS : List String :=
  ["RESUMEN GRAFICO", "TIPO COMPROBANTE", "EXPRESADAS EN TERMINOS ANUALES",
   "RENDIMIENTOS", "BANCO INBURSA", "REGIMEN FISCAL", "CLIENTE INBURSA"]

/-- inbursa `looks_like_footer`: any footer term occurs in the normalised
left-to-right text of the line. -/
def inbursa_looks_like_footer (line : List Word) : Bool :=
  let t := inbursa_norm (String.intercalate " "
    ((List.insertionSort (fun a b : Word => a.x0 ≤ b.x0) line).map (fun w => w.text)))
  INBURSA_FOOTER_TERMS.any (fun term => pyContains t term)

/-- The footer-controlled line scan of inbursa `_parse_page`
(lines 304-308): the loop `break`s at the first footer line (after a forced
flush), so the function returns exactly the lines whose content is
processed. -/
def inbursa_processed_lines : List (List Word) → List (List Word)
  | [] => []
  | l :: ls =>
      if inbursa_looks_like_footer l then []
      else l :: inbursa_processed_lines ls

/-! ### Helper lemmas -/

lemma pyRound_nonneg (q : Rat) (h : 0 ≤ q) : 0 ≤ pyRound q := by
  unfold pyRound
  have hf : (0 : Int) ≤ q.floor := Rat.le_floor.mpr (by exact_mod_cast h)
  dsimp only
  split_ifs <;> omega

lemma round2_nonneg (q : Rat) (h : 0 ≤ q) : 0 ≤ round2 q := by
  unfold round2
  have h1 : (0 : Int) ≤ pyRound (q * 100) := pyRound_nonneg _ (by positivity)
  have h2 : (0 : Rat) ≤ ((pyRound (q * 100) : Int) : Rat) := by exact_mod_cast h1
  positivity

lemma round2_zero : round2 0 = 0 := by decide

/-- C10: amount normalization is total and absorbs malformed input:
`_norm_amount` (the identical helper of the Banorte, Santander and BBVA
extractors, embedded as the Lean-total function `norm_amount`) returns `0.0`
for `None`, for the empty string, and for any text whose cleaned form
(currency symbols, spaces and commas removed) Python `float()` would reject;
the `except` clause makes every failure silent. -/
theorem norm_amount_total_and_malformed_to_zero (s : Option String)
    (h : s = none ∨ s = some "" ∨
      ∃ t, s = some t ∧ pyFloatParse (normAmountClean t) = none) :
    norm_amount s = 0 := by
  rcases h with h | h | ⟨t, ht, hp⟩
  · rw [h]; rfl
  · rw [h]; rfl
  · rw [ht]
    unfold norm_amount
    by_cases he : t.data = []
    · simp [he]
    · simp only [he, if_false]
      rw [hp]

/-- Witness for C10 at the concrete malformed token `"12abc"`. -/
theorem norm_amount_total_and_malformed_to_zero_witness :
    norm_amount (some "12abc") = 0 :=
  norm_amount_total_and_malformed_to_zero (some "12abc")
    (Or.inr (Or.inr ⟨"12abc", rfl, by rfl⟩))

/-- C4: santander `_reconcile_amounts` on a transaction with both sides
positive and an ambiguous description (the credit keyword test and the debit
keyword test agree, i.e. both match or neither matches) zeroes the credit
side (`deposito`) and keeps the debit value (`retiro`) unchanged (the final
2-decimal rounding is the identity on the 2-decimal amounts that reach this
function, expressed by the hypothesis `round2 ret = ret`). -/
theorem reconcile_ambiguous_zeroes_credit (desc : String) (dep ret : Rat)
    (hd : 0 < dep) (hr : 0 < ret)
    (hambig : santander_has_tokens desc ABONO_KEYS = santander_has_tokens desc RETIRO_KEYS)
    (hround : round2 ret = ret) :
    santander_reconcile_amounts desc dep ret = (0, ret) := by
  cases hA : santander_has_tokens desc ABONO_KEYS with
  | true =>
      have hB : santander_has_tokens desc RETIRO_KEYS = true := by rw [← hambig, hA]
      simp only [santander_reconcile_amounts, hA, hB]
      rw [if_pos ⟨hd, hr⟩]
      simp [round2_zero, hround]
  | false =>
      have hB : santander_has_tokens desc RETIRO_KEYS = false := by rw [← hambig, hA]
      simp only [santander_reconcile_amounts, hA, hB]
      rw [if_pos ⟨hd, hr⟩]
      simp [round2_zero, hround]

/-- Witness for C4: description `"XYZ Q"` matches neither keyword list, both
sides are positive, and reconciliation returns `(0, 3)`. -/
theorem reconcile_ambiguous_zeroes_credit_witness :
    santander_reconcile_amounts "XYZ Q" 5 3 = (0, 3) :=
  reconcile_ambiguous_zeroes_credit "XYZ Q" 5 3 (by norm_num) (by norm_num)
    (by decide) (by decide)

/-- C3 (counterexample): the claim says the classifier defaults to credit
when the description matches both keyword lists or neither.  BBVA's
`_maybe_fix_amount_columns` classifies the single ambiguous non-zero amount
`50` with description `"MISC"` — which matches no credit keyword and no
debit keyword — as a debit: the value lands in `cargos`, not `abonos`. -/
theorem classifier_default_counterexample :
    bbva_maybe_fix_amount_columns ⟨none, none, "MISC", 0, 0, some 50, none⟩ =
      ⟨none, none, "MISC", 50, 0, none, none⟩ ∧
    bbvaIsCredit "MISC" = false ∧ bbvaIsDebit "MISC" = false ∧ (50 : Rat) ≠ 0 := by
  refine ⟨by decide, rfl, rfl, by norm_num⟩

/-- C3 (amended): for a single ambiguous non-zero amount, the Banorte and
Santander classifiers return debit exactly when a debit keyword matches and
no credit keyword does, and credit otherwise (credit-only, both, or neither
— credit is their default); BBVA's `_maybe_fix_amount_columns` uses the
opposite default: the value goes to the credit side (`abonos`) exactly when
a credit keyword matches and no debit keyword does, and to the debit side
(`cargos`) otherwise (debit-only, both, or neither). -/
theorem classifier_decision_rules :
    (∀ (d : String) (m : Rat), m ≠ 0 →
        banorte_classify d m =
          if banorteHasRetiro d ∧ ¬ banorteHasAbono d then (m, 0) else (0, m)) ∧
    (∀ (d : String) (m : Rat), m ≠ 0 →
        santander_classify_by_keywords d m =
          if santander_has_tokens d RETIRO_KEYS ∧ ¬ santander_has_tokens d ABONO_KEYS
          then (m, 0) else (0, m)) ∧
    (∀ (tx : BbvaTxRow) (v : Rat), tx.cargos = 0 → tx.abonos = 0 →
        ([tx.s_oper, tx.s_liq].filterMap id).filter (fun x => x ≠ 0) = [v] →
        bbva_maybe_fix_amount_columns tx =
          if bbvaIsCredit tx.desc ∧ ¬ bbvaIsDebit tx.desc
          then { tx with abonos := v, s_oper := none, s_liq := none }
          else { tx with cargos := v, s_oper := none, s_liq := none }) := by
  refine ⟨?_, ?_, ?_⟩
  · intro d m hm
    by_cases hA : banorteHasAbono d <;> by_cases hR : banorteHasRetiro d <;>
      simp [banorte_classify, hA, hR, hm]
  · intro d m hm
    by_cases hA : santander_has_tokens d ABONO_KEYS <;>
      by_cases hR : santander_has_tokens d RETIRO_KEYS <;>
        simp [santander_classify_by_keywords, hA, hR, hm]
  · intro tx v h1 h2 h3
    simp only [bbva_maybe_fix_amount_columns, h1, h2, h3]
    simp

/-- Witness for C3 (amended) at concrete inputs: a credit-keyword-only
description classifies as credit in Banorte, a keyword-free description
defaults to credit in Santander, and a debit-keyword description goes to
`cargos` in BBVA. -/
theorem classifier_decision_rules_witness :
    banorte_classify "ABONO X" 7 = (0, 7) ∧
    santander_classify_by_keywords "MISC" 5 = (0, 5) ∧
    bbva_maybe_fix_amount_columns ⟨none, none, "PAGO Y", 0, 0, none, some 80⟩ =
      ⟨none, none, "PAGO Y", 80, 0, none, none⟩ := by
  refine ⟨?_, ?_, ?_⟩
  · rw [classifier_decision_rules.1 "ABONO X" 7 (by norm_num),
      if_neg (by decide)]
  · rw [classifier_decision_rules.2.1 "MISC" 5 (by norm_num),
      if_neg (by decide)]
  · rw [classifier_decision_rules.2.2 ⟨none, none, "PAGO Y", 0, 0, none, some 80⟩ 80
      rfl rfl (by decide), if_neg (by decide)]

/-- C1 (counterexample): a Banorte row whose amount run has length 3 is
emitted with `deposit = 100` and `withdrawal = 200` both non-zero —
`_parse_section_to_rows` applies no reconciliation before the rows are
written to the output ledger, so the at-most-one-nonzero invariant fails. -/
theorem ledger_invariant_counterexample :
    (banorte_parse_section_to_rows "01-ene-24 FOO 100.00 200.00 300.00" none).map
      (fun r => (r.deposit, r.withdrawal, r.balance)) =
      [((100 : Rat), (200 : Rat), some (300 : Rat))] ∧
    ¬ ((100 : Rat) = 0 ∨ (200 : Rat) = 0) := by
  constructor
  · decide
  · norm_num

/-- C1 (amended): the invariant holds exactly where reconciliation runs:
santander `_reconcile_amounts` (applied at every flush and amount update)
returns a non-negative pair with at most one non-zero component, for any
non-negative inputs.  The Banorte extractor has no reconciliation pass and
emits length-3 runs as extracted (see the counterexample). -/
theorem reconciled_amounts_invariant (desc : String) (dep ret : Rat)
    (hd : 0 ≤ dep) (hr : 0 ≤ ret) :
    0 ≤ (santander_reconcile_amounts desc dep ret).1 ∧
    0 ≤ (santander_reconcile_amounts desc dep ret).2 ∧
    ((santander_reconcile_amounts desc dep ret).1 = 0 ∨
      (santander_reconcile_amounts desc dep ret).2 = 0) := by
  unfold santander_reconcile_amounts
  dsimp only
  split_ifs with h1 h2 h3 h4 h5 <;> dsimp only <;>
    refine ⟨?_, ?_, ?_⟩
  · exact round2_nonneg _ hd
  · rw [round2_zero]
  · exact Or.inr round2_zero
  · rw [round2_zero]
  · exact round2_nonneg _ hr
  · exact Or.inl round2_zero
  · rw [round2_zero]
  · exact round2_nonneg _ hr
  · exact Or.inl round2_zero
  · rw [round2_zero]
  · exact round2_nonneg _ hd
  · exact Or.inl round2_zero
  · exact round2_nonneg _ hr
  · rw [round2_zero]
  · exact Or.inr round2_zero
  · exact round2_nonneg _ hd
  · exact round2_nonneg _ hr
  · rcases not_and_or.mp h1 with h | h
    · exact Or.inl (by rw [le_antisymm (not_lt.mp h) hd, round2_zero])
    · exact Or.inr (by rw [le_antisymm (not_lt.mp h) hr, round2_zero])

/-- Witness for C1 (amended) at `desc = "XYZ Q"`, `dep = 5`, `ret = 3`. -/
theorem reconciled_amounts_invariant_witness :
    0 ≤ (santander_reconcile_amounts "XYZ Q" 5 3).1 ∧
    0 ≤ (santander_reconcile_amounts "XYZ Q" 5 3).2 ∧
    ((santander_reconcile_amounts "XYZ Q" 5 3).1 = 0 ∨
      (santander_reconcile_amounts "XYZ Q" 5 3).2 = 0) :=
  reconciled_amounts_invariant "XYZ Q" 5 3 (by norm_num) (by norm_num)

/-- C2 (counterexample): for the length-3 amount run `1.00 2.00 3.00` the
claim says the first value becomes the debit (withdrawal) and the second the
credit (deposit).  The emitted Banorte row has `withdrawal = 2` and
`deposit = 1`: the first value went to the deposit (credit) side. -/
theorem run3_order_counterexample :
    (banorte_parse_section_to_rows "01-ene-24 FOO 1.00 2.00 3.00" none).map
      (fun r => (r.withdrawal, r.deposit, r.balance)) =
      [((2 : Rat), (1 : Rat), some (3 : Rat))] ∧
    (2 : Rat) ≠ 1 := by
  constructor
  · decide
  · norm_num

/-- C2 (amended): a length-3 amount run is interpreted left-to-right as
`(credit, debit, balance)`: the first value is assigned to the
deposit/credit field, the second to the withdrawal/debit field and the third
to the balance — in Banorte's per-row assembly (with 2-decimal rounding) and
in Santander's date-row run interpretation alike (in Santander the pair then
passes through the reconciliation pass, which can zero one side). -/
theorem run3_order_credit_debit_balance :
    (∀ (fdate : PyDate) (body : String) (a b c : Rat),
        (banorte_extract_amount_run body).2 = [a, b, c] →
        (banorte_row_of_body fdate body).deposit = round2 a ∧
        (banorte_row_of_body fdate body).withdrawal = round2 b ∧
        (banorte_row_of_body fdate body).balance = some (round2 c)) ∧
    (∀ (descFb rowText : String) (a b c : Rat),
        santander_run_interpret descFb rowText [a, b, c] = (a, b, some c)) := by
  constructor
  · intro fdate body a b c h
    rcases hE : banorte_extract_amount_run body with ⟨desc0, tail0⟩
    rw [hE] at h
    simp only at h
    subst h
    simp [banorte_row_of_body, hE]
  · intro descFb rowText a b c
    rfl

/-- Witness for C2 (amended) at the concrete body `"FOO 1.00 2.00 3.00"`. -/
theorem run3_order_credit_debit_balance_witness :
    (banorte_row_of_body ⟨2024, 1, 1⟩ "FOO 1.00 2.00 3.00").deposit = round2 1 ∧
    (banorte_row_of_body ⟨2024, 1, 1⟩ "FOO 1.00 2.00 3.00").withdrawal = round2 2 ∧
    (banorte_row_of_body ⟨2024, 1, 1⟩ "FOO 1.00 2.00 3.00").balance = some (round2 3) :=
  run3_order_credit_debit_balance.1 ⟨2024, 1, 1⟩ "FOO 1.00 2.00 3.00" 1 2 3
    (by decide)

/-- C5 (counterexample): the Santander end-of-page epilogue flushes the open
transaction instead of carrying it forward: with one open transaction and
the CUENTA section active, the page end emits it into the section list and
clears `current`, so a movement completed on the next page would become a
second, separate transaction. -/
theorem crosspage_carry_counterexample :
    santander_page_end ⟨[], []⟩
      (some ⟨none, none, "PAGO X", 0, 100, some 900⟩) (some .cuenta) =
      (⟨[⟨none, none, "PAGO X", 0, 100, some 900⟩], []⟩, none, none) := by
  decide

/-- C5 (amended): in the BBVA extractor an open transaction survives the
page boundary — the end-of-page epilogue changes only the cross-page flags
and leaves both the emitted list and the open transaction untouched, and the
open transaction is appended exactly once at document end.  In the Santander
extractor the end-of-page epilogue unconditionally flushes the open
transaction (reconciled) into the active section's list and clears it. -/
theorem crosspage_carry_behaviour :
    (∀ (txs : List BbvaTxRow) (cur : Option BbvaTxRow) (curIdx : Option Nat)
        (t h : Bool),
        (bbva_page_end txs cur curIdx t h).1 = txs ∧
        (bbva_page_end txs cur curIdx t h).2.1 = cur) ∧
    (∀ (txs : List BbvaTxRow) (c : BbvaTxRow), bbva_doc_end txs (some c) = txs ++ [c]) ∧
    (∀ (st : SantLists) (tx : SantTxRow),
        (santander_page_end st (some tx) (some .cuenta)).1.cheques =
          st.cheques ++
            [{ tx with
                deposito := (santander_reconcile_amounts tx.desc tx.deposito tx.retiro).1,
                retiro := (santander_reconcile_amounts tx.desc tx.deposito tx.retiro).2 }] ∧
        (santander_page_end st (some tx) (some .cuenta)).2.1 = none) := by
  refine ⟨fun _ _ _ _ _ => ⟨rfl, rfl⟩, fun _ _ => rfl, fun st tx => ⟨?_, rfl⟩⟩
  cases h : santander_reconcile_amounts tx.desc tx.deposito tx.retiro with
  | mk d r => simp [santander_page_end, santander_flush_current, h]

lemma santTailGrow_subset (s : List Char) (maxn : Nat) :
    ∀ (earlier : List (Nat × Nat)) (curStart count : Nat),
      ∀ m ∈ santTailGrow s maxn curStart count earlier, m ∈ earlier := by
  intro earlier
  induction earlier with
  | nil => intro _ _ m hm; simp [santTailGrow] at hm
  | cons m0 rest ih =>
      intro curStart count m hm
      unfold santTailGrow at hm
      split_ifs at hm with h1 h2
      · rcases List.mem_cons.mp hm with h | h
        · exact h ▸ List.mem_cons_self _ _
        · exact List.mem_cons_of_mem _ (ih m0.1 (count + 1) m h)
      · simp at hm
      · simp at hm

/-- C8 (counterexample): under the Banorte extractor a digit sequence of the
form `0,000,xxx.xx` is parsed as a monetary amount, not description text:
`_extract_amount_run` strips `0,000,070.69` from the text and returns the
value `70.69`. -/
theorem invex_exclusion_counterexample :
    banorte_extract_amount_run "FOO 0,000,070.69" = ("FOO", [7069 / 100]) ∧
    ((7069 : Rat) / 100) ≠ 0 := by
  constructor
  · decide
  · norm_num

/-- C8 (amended): the `0,000,xxx.xx` exclusion lives in the Santander
extractor, not the Banorte one, and fires only on lines mentioning
BANCO INVEX: there `_extract_tail_run` filters such tokens out of the
amount-match list before tail selection (every selected tail match comes
from the filtered list, and every filtered match passes the fake-amount
test), so the token stays in the description; the same token is parsed as an
amount by Banorte (see the counterexample). -/
theorem invex_exclusion_in_santander :
    (∀ (s : List Char) (maxn : Nat) (ms : List (Nat × Nat)),
        ∀ m ∈ santTailPick s maxn ms, m ∈ ms) ∧
    (∀ (s : List Char), reTest reBancoInvexTag s = true →
        ∀ m ∈ santMatches s, santFakeFree s m = true) ∧
    (santander_extract_tail_run "BANCO INVEX 0,000,070.69" 3 =
      ("BANCO INVEX 0,000,070.69", [])) := by
  refine ⟨?_, ?_, by decide⟩
  · intro s maxn ms m hm
    unfold santTailPick at hm
    rcases hrev : ms.reverse with _ | ⟨last, earlier⟩
    · rw [hrev] at hm; simp at hm
    · rw [hrev] at hm
      rw [← List.mem_reverse, hrev]
      rcases List.mem_append.mp hm with h | h
      · exact List.mem_cons_of_mem _
          (santTailGrow_subset s maxn earlier last.1 1 m (List.mem_reverse.mp h))
      · simp at h
        exact h ▸ List.mem_cons_self _ _
  · intro s htag m hm
    unfold santMatches at hm
    rw [htag] at hm
    simp only [if_true] at hm
    exact (List.mem_filter.mp hm).2

/-- Witness for C8 (amended) at concrete inputs. -/
theorem invex_exclusion_in_santander_witness :
    ((0, 1) ∈ ([(0, 1)] : List (Nat × Nat))) ∧
    santFakeFree "BANCO INVEX 5.00".data (11, 16) = true := by
  constructor
  · exact invex_exclusion_in_santander.1 "x".data 3 [(0, 1)] (0, 1) (by decide)
  · exact invex_exclusion_in_santander.2.1 "BANCO INVEX 5.00".data rfl (11, 16)
      (by decide)

lemma sep_filter_le_one (x : Rat) :
    ∀ (bs : List (Rat × Rat)), bs.Pairwise (fun b1 b2 => b1.2 < b2.1) →
      (bs.filter (fun b => decide (b.1 ≤ x ∧ x ≤ b.2))).length ≤ 1 := by
  intro bs
  induction bs with
  | nil => intro _; simp
  | cons b rest ih =>
      intro hp
      rw [List.pairwise_cons] at hp
      by_cases hb : b.1 ≤ x ∧ x ≤ b.2
      · have hrest : rest.filter (fun b => decide (b.1 ≤ x ∧ x ≤ b.2)) = [] := by
          refine List.filter_eq_nil_iff.mpr ?_
          intro a ha
          simp only [decide_eq_true_eq, not_and, not_le]
          intro h1
          exact False.elim ((not_le.mpr (lt_of_le_of_lt hb.2 (hp.1 a ha))) h1)
        have hbt : (decide (b.1 ≤ x ∧ x ≤ b.2)) = true := by simpa using hb
        simp only [List.filter_cons, hbt, if_true, hrest, List.length_cons,
          List.length_nil, le_refl]
      · simp only [List.filter_cons, hb, decide_eq_true_eq, if_neg hb]
        exact ih hp.2

lemma santBands_props (pw : Rat) (xs : List Rat)
    (hs : List.Sorted (fun a b : Rat => a ≤ b) xs) :
    (santBandsOfXs pw xs).Pairwise (fun b1 b2 => b1.2 < b2.1) ∧
    List.Chain' (fun b1 b2 => b2.1 = b1.2 + 2) (santBandsOfXs pw xs) := by
  rcases xs with _ | ⟨a, _ | ⟨b, _ | ⟨c, _ | ⟨d, _ | ⟨e, _ | ⟨f, _ | ⟨g, rest⟩⟩⟩⟩⟩⟩⟩ <;>
    try exact ⟨List.Pairwise.nil, List.chain'_nil⟩
  simp only [List.Sorted, List.pairwise_cons, List.mem_cons, List.not_mem_nil,
    List.mem_singleton, forall_eq_or_imp, forall_eq, or_false] at hs
  obtain ⟨⟨hab, -, -, -, -⟩, ⟨hbc, -, -, -⟩, ⟨hcd, -, -⟩, ⟨hde, -⟩, hef, -⟩ := hs
  constructor
  · simp only [santBandsOfXs, List.pairwise_cons, List.mem_cons, List.not_mem_nil,
      List.mem_singleton, forall_eq_or_imp, forall_eq, or_false, List.Pairwise.nil,
      and_true, IsEmpty.forall_iff, implies_true, true_and]
    repeat' apply And.intro
    all_goals linarith
  · simp only [santBandsOfXs, List.chain'_cons, List.chain'_singleton, and_true]
    repeat' apply And.intro
    all_goals ring

lemma bbvaBands_props (pw : Rat) (xs : List Rat)
    (hs : List.Sorted (fun a b : Rat => a ≤ b) xs) :
    (bbvaBandsOfXs pw xs).Pairwise (fun b1 b2 => b1.2 < b2.1) ∧
    List.Chain' (fun b1 b2 => b2.1 = b1.2 + 2) (bbvaBandsOfXs pw xs) := by
  rcases xs with _ | ⟨a, _ | ⟨b, _ | ⟨c, _ | ⟨d, _ | ⟨e, _ | ⟨f, _ | ⟨g, _ |
    ⟨h, _ | ⟨i, rest⟩⟩⟩⟩⟩⟩⟩⟩⟩ <;>
    try exact ⟨List.Pairwise.nil, List.chain'_nil⟩
  simp only [List.Sorted, List.pairwise_cons, List.mem_cons, List.not_mem_nil,
    List.mem_singleton, forall_eq_or_imp, forall_eq, or_false] at hs
  obtain ⟨⟨hab, -, -, -, -, -, -⟩, ⟨hbc, -, -, -, -, -⟩, ⟨hcd, -, -, -, -⟩,
    ⟨hde, -, -, -⟩, ⟨hef, -, -⟩, ⟨hfg, -⟩, hgh, -⟩ := hs
  constructor
  · simp only [bbvaBandsOfXs, List.pairwise_cons, List.mem_cons, List.not_mem_nil,
      List.mem_singleton, forall_eq_or_imp, forall_eq, or_false, List.Pairwise.nil,
      and_true, IsEmpty.forall_iff, implies_true, true_and]
    repeat' apply And.intro
    all_goals linarith
  · simp only [bbvaBandsOfXs, List.chain'_cons, List.chain'_singleton, and_true]
    repeat' apply And.intro
    all_goals ring

instance : IsTotal Rat (fun a b : Rat => a ≤ b) := ⟨fun a b => le_total a b⟩

instance : IsTrans Rat (fun a b : Rat => a ≤ b) := ⟨fun _ _ _ => le_trans⟩

/-- C6 (counterexample): with no detected labels and page width 100, the
santander default-fraction anchors are `[7, 16, 40, 62, 74, 88]`; the point
`x = 11.5` — the midpoint of the first two anchors — lies in `[0, 100]` but
in none of the six returned bands (each boundary carries a 1-unit margin on
both sides), so the bands do not cover `[0, page_width]`. -/
theorem column_bands_gap_counterexample :
    (0 : Rat) ≤ 23 / 2 ∧ (23 / 2 : Rat) ≤ 100 ∧
    ((santander_detect_columns [] 100).1.filter
      (fun b => decide (b.1 ≤ 23 / 2 ∧ 23 / 2 ≤ b.2))) = [] := by
  refine ⟨by norm_num, by norm_num, by decide⟩

/-- C6 (amended): for every word list and page width, the bands returned by
`_detect_columns` (santander and bbva) are pairwise non-overlapping — in
fact strictly separated, each band ending below the start of every later
band — and consecutive bands are separated by a gap of exactly 2 units
around the anchor midpoint; consequently any x-coordinate lies in at most
one band, but the union does not cover `[0, page_width]` (see the
counterexample). -/
theorem column_bands_disjoint_with_gaps :
    (∀ (words : List Word) (pw : Rat),
      (santander_detect_columns words pw).1.Pairwise (fun b1 b2 => b1.2 < b2.1) ∧
      List.Chain' (fun b1 b2 => b2.1 = b1.2 + 2) (santander_detect_columns words pw).1 ∧
      ∀ x : Rat, ((santander_detect_columns words pw).1.filter
          (fun b => decide (b.1 ≤ x ∧ x ≤ b.2))).length ≤ 1) ∧
    (∀ (words : List Word) (pw : Rat),
      (bbva_detect_columns words pw).1.Pairwise (fun b1 b2 => b1.2 < b2.1) ∧
      List.Chain' (fun b1 b2 => b2.1 = b1.2 + 2) (bbva_detect_columns words pw).1 ∧
      ∀ x : Rat, ((bbva_detect_columns words pw).1.filter
          (fun b => decide (b.1 ≤ x ∧ x ≤ b.2))).length ≤ 1) := by
  constructor
  · intro words pw
    have hfst : (santander_detect_columns words pw).1 =
        santBandsOfXs pw (List.insertionSort (fun a b : Rat => a ≤ b)
          [anchorX (labelHits words ["FECHA"]) pw (7/100),
           anchorX (labelHits words ["FOLIO"]) pw (16/100),
           anchorX (labelHits words ["DESCRIPCION", "DESCRIPCIÓN"]) pw (40/100),
           anchorX (labelHits words ["DEPOSITO", "DEPÓSITO"]) pw (62/100),
           anchorX (labelHits words ["RETIRO"]) pw (74/100),
           anchorX (labelHits words ["SALDO"]) pw (88/100)]) := rfl
    rw [hfst]
    obtain ⟨hp, hc⟩ := santBands_props pw _ (List.sorted_insertionSort _ _)
    exact ⟨hp, hc, fun x => sep_filter_le_one x _ hp⟩
  · intro words pw
    have hfst : (bbva_detect_columns words pw).1 =
        bbvaBandsOfXs pw (List.insertionSort (fun a b : Rat => a ≤ b)
          [anchorX (labelHits words ["OPER"]) pw (8/100),
           anchorX (labelHits words ["LIQ"]) pw (13/100),
           anchorX (labelHits words ["COD.", "DESCRIPCIÓN", "DESCRIPCION"]) pw (33/100),
           anchorX (labelHits words ["REFERENCIA"]) pw (51/100),
           anchorX (labelHits words ["CARGOS"]) pw (70/100),
           anchorX (labelHits words ["ABONOS"]) pw (78/100),
           anchorX (labelHits words ["OPERACIÓN", "OPERACION"]) pw (86/100),
           anchorX (labelHits words ["LIQUIDACIÓN", "LIQUIDACION"]) pw (94/100)]) := rfl
    rw [hfst]
    obtain ⟨hp, hc⟩ := bbvaBands_props pw _ (List.sorted_insertionSort _ _)
    exact ⟨hp, hc, fun x => sep_filter_le_one x _ hp⟩

/-- C7 (counterexample): in the Banorte extractor the hard-stop trailer
sentinel does not exclude everything after it.  In the page text below the
`IPAB` sentinel row (matched at positions 71-75) precedes the `02-ene-24`
row (date token at position 137), yet after `_slice_sections` and
`_parse_section_to_rows` that later row is still emitted as a transaction:
the sentinel only truncates the current section block, and a later
section-start header (the repeated `DETALLE DE MOVIMIENTOS` line) resumes
inclusion. -/
theorem sentinel_hard_stop_counterexample :
    let full := "DETALLE DE MOVIMIENTOS ENLACE NEGOCIOS BASICA\n01-ene-24 PAGO 1.00 2.00\nIPAB\nSALDO PROMEDIO\nDETALLE DE MOVIMIENTOS ENLACE NEGOCIOS BASICA\n02-ene-24 ABONO 3.00 4.00\n"
    reSearch reStopTrailBan full.data = some (71, 75) ∧
    (reFinditer reDateTokenBan full.data).map Prod.fst = [46, 137] ∧
    75 ≤ 137 ∧
    (banorte_parse_section_to_rows (banorte_slice_sections full
        ["ENLACE NEGOCIOS BASICA", "ENLACE NEGOCIOS AVANZADA"]) none).map
      (fun r => (r.date, r.deposit, r.withdrawal, r.balance)) =
      [(⟨2024, 1, 1⟩, 0, 1, some 2), (⟨2024, 1, 2⟩, (3 : Rat), 0, some 4)] := by
  refine ⟨by decide, by decide, by decide, by decide⟩

/-- C7 (amended): the hard-stop behaviour that does hold, per vendor.  In
BBVA, the row loop processes exactly the prefix of rows before the first
sentinel row (dashed separator / ESTIMADO CLIENTE notice / TOTAL DE
MOVIMIENTOS marker), so no row after a sentinel on that page contributes;
in Inbursa, the line loop processes exactly the prefix before the first
footer line; and in BBVA a page whose scan hit the totals marker is the last
processed page of the document (`hard_stop_after_this_page`).  Banorte's
trailer sentinel, by contrast, only truncates the current section block
(see the counterexample). -/
theorem sentinel_hard_stop_scoped :
    (∀ rows : List (List Word),
        (bbva_scan_rows rows).1 =
          rows.takeWhile (fun r => !(bbvaRowIsDashOrNotice r || bbvaRowIsTotals r))) ∧
    (∀ lines : List (List Word),
        inbursa_processed_lines lines =
          lines.takeWhile (fun l => !(inbursa_looks_like_footer l))) ∧
    (∀ (ps : List BbvaPage) (p : BbvaPage),
        p ∈ bbva_processed_pages ps → bbvaPageSawTotals p = true →
        (bbva_processed_pages ps).getLast? = some p) := by
  refine ⟨?_, ?_, ?_⟩
  · intro rows
    induction rows with
    | nil => rfl
    | cons r rs ih =>
        rcases hE : bbva_scan_rows rs with ⟨pr, prest⟩
        rw [hE] at ih
        by_cases h1 : bbvaRowIsDashOrNotice r
        · simp [bbva_scan_rows, h1, List.takeWhile_cons]
        · by_cases h2 : bbvaRowIsTotals r
          · simp [bbva_scan_rows, h1, h2, List.takeWhile_cons]
          · simp [bbva_scan_rows, h1, h2, hE, List.takeWhile_cons, ih]
  · intro lines
    induction lines with
    | nil => rfl
    | cons l ls ih =>
        by_cases h : inbursa_looks_like_footer l
        · simp [inbursa_processed_lines, h, List.takeWhile_cons]
        · simp [inbursa_processed_lines, h, List.takeWhile_cons, ih]
  · intro ps
    induction ps with
    | nil => intro p hp; simp [bbva_processed_pages] at hp
    | cons q qs ih =>
        intro p hp ht
        by_cases hskip : reTest reSkipPage q.text.data
        · rw [bbva_processed_pages, if_pos hskip] at hp ⊢
          exact ih p hp ht
        · by_cases hq : bbvaPageSawTotals q
          · rw [bbva_processed_pages, if_neg hskip, if_pos hq] at hp ⊢
            rcases List.mem_singleton.mp hp with rfl
            rfl
          · rw [bbva_processed_pages, if_neg hskip, if_neg hq] at hp ⊢
            rcases List.mem_cons.mp hp with rfl | hp2
            · exact absurd ht (by simp [hq])
            · have hlast := ih p hp2 ht
              exact Option.mem_def.mp
                (List.mem_getLast?_cons (Option.mem_def.mpr hlast))

/-- Witness for C7 (amended): a one-page document whose only row is the
`TOTAL DE MOVIMIENTOS` marker; that page is the last processed page. -/
theorem sentinel_hard_stop_scoped_witness :
    (bbva_processed_pages
      [⟨"x", [⟨"TOTAL DE MOVIMIENTOS", 0, 10, 10, 12⟩], 100⟩]).getLast? =
      some ⟨"x", [⟨"TOTAL DE MOVIMIENTOS", 0, 10, 10, 12⟩], 100⟩ :=
  sentinel_hard_stop_scoped.2.2
    [⟨"x", [⟨"TOTAL DE MOVIMIENTOS", 0, 10, 10, 12⟩], 100⟩]
    ⟨"x", [⟨"TOTAL DE MOVIMIENTOS", 0, 10, 10, 12⟩], 100⟩
    (by decide) (by decide)

lemma bget_bput_same (k : Int) (w : Word) :
    ∀ m : List (Int × List Word), bget (bput m k w) k = bget m k ++ [w] := by
  intro m
  induction m with
  | nil => simp [bput, bget]
  | cons p rest ih =>
      rcases p with ⟨k0, ws⟩
      by_cases h : k0 = k
      · simp [bput, bget, h]
      · simp [bput, bget, h, ih]

lemma bget_bput_other (k k' : Int) (w : Word) (hkk : k' ≠ k) :
    ∀ m : List (Int × List Word), bget (bput m k w) k' = bget m k' := by
  intro m
  induction m with
  | nil => simp [bput, bget, Ne.symm hkk]
  | cons p rest ih =>
      rcases p with ⟨k0, ws⟩
      by_cases h : k0 = k
      · subst h
        have hkk2 : ¬ k0 = k' := fun h2 => hkk (h2.symm)
        simp [bput, bget, hkk2]
      · by_cases h2 : k0 = k'
        · simp [bput, bget, h, h2, hkk]
        · simp [bput, bget, h, h2, ih]

lemma bget_fold (key : Word → Int) :
    ∀ (body : List Word) (m0 : List (Int × List Word)) (k : Int),
      bget (body.foldl (fun m w => bput m (key w) w) m0) k =
        bget m0 k ++ body.filter (fun w => key w = k) := by
  intro body
  induction body with
  | nil => intro m0 k; simp
  | cons w ws ih =>
      intro m0 k
      simp only [List.foldl_cons, List.filter_cons]
      rw [ih]
      by_cases h : key w = k
      · subst h
        rw [bget_bput_same]
        simp [List.append_assoc]
      · rw [bget_bput_other _ _ _ (fun h2 => h h2.symm)]
        simp [h]

lemma bkeys_cons (k0 : Int) (ws : List Word) (rest : List (Int × List Word)) :
    bkeys ((k0, ws) :: rest) = k0 :: bkeys rest := rfl

lemma mem_bkeys_bput (k k' : Int) (w : Word) :
    ∀ m : List (Int × List Word),
      (k' ∈ bkeys (bput m k w) ↔ k' ∈ bkeys m ∨ k' = k) := by
  intro m
  induction m with
  | nil => simp [bput, bkeys]
  | cons p rest ih =>
      rcases p with ⟨k0, ws⟩
      by_cases h : k0 = k
      · subst h
        have e : bput ((k0, ws) :: rest) k0 w = (k0, ws ++ [w]) :: rest := by
          simp [bput]
        rw [e, bkeys_cons, bkeys_cons]
        simp only [List.mem_cons]
        tauto
      · have e : bput ((k0, ws) :: rest) k w = (k0, ws) :: bput rest k w := by
          simp [bput, h]
        rw [e, bkeys_cons, bkeys_cons]
        simp only [List.mem_cons]
        rw [ih]
        tauto

lemma mem_bkeys_fold (key : Word → Int) :
    ∀ (body : List Word) (m0 : List (Int × List Word)) (k : Int),
      (k ∈ bkeys (body.foldl (fun m w => bput m (key w) w) m0) ↔
        k ∈ bkeys m0 ∨ ∃ w ∈ body, key w = k) := by
  intro body
  induction body with
  | nil => intro m0 k; simp
  | cons w ws ih =>
      intro m0 k
      simp only [List.foldl_cons]
      rw [ih, mem_bkeys_bput]
      simp only [List.mem_cons]
      constructor
      · rintro ((h | h) | h)
        · exact Or.inl h
        · exact Or.inr ⟨w, Or.inl rfl, h.symm⟩
        · rcases h with ⟨w2, hw2, hk⟩
          exact Or.inr ⟨w2, Or.inr hw2, hk⟩
      · rintro (h | ⟨w2, hw2 | hw2, hk⟩)
        · exact Or.inl (Or.inl h)
        · exact Or.inl (Or.inr (hw2 ▸ hk.symm))
        · exact Or.inr ⟨w2, hw2, hk⟩

lemma nodup_bkeys_bput (k : Int) (w : Word) :
    ∀ m : List (Int × List Word), (bkeys m).Nodup → (bkeys (bput m k w)).Nodup := by
  intro m
  induction m with
  | nil => intro _; simp [bput, bkeys]
  | cons p rest ih =>
      rcases p with ⟨k0, ws⟩
      intro hnd
      simp only [bkeys, List.map_cons, List.nodup_cons] at hnd
      by_cases h : k0 = k
      · subst h
        simpa [bput, bkeys, List.nodup_cons] using hnd
      · have h2 : k0 ∉ bkeys (bput rest k w) := by
          rw [mem_bkeys_bput]
          rintro (hmem | rfl)
          · exact hnd.1 hmem
          · exact h rfl
        simp only [bput, bkeys, h, if_false, List.map_cons, List.nodup_cons]
        exact ⟨h2, ih hnd.2⟩

lemma nodup_bkeys_fold (key : Word → Int) :
    ∀ (body : List Word) (m0 : List (Int × List Word)),
      (bkeys m0).Nodup → (bkeys (body.foldl (fun m w => bput m (key w) w) m0)).Nodup := by
  intro body
  induction body with
  | nil => intro m0 h; simpa using h
  | cons w ws ih =>
      intro m0 h
      simp only [List.foldl_cons]
      exact ih _ (nodup_bkeys_bput _ _ _ h)

instance : IsTotal Word (fun a b : Word => a.x0 ≤ b.x0) :=
  ⟨fun a b => le_total a.x0 b.x0⟩

instance : IsTrans Word (fun a b : Word => a.x0 ≤ b.x0) :=
  ⟨fun _ _ _ h1 h2 => le_trans h1 h2⟩

instance : IsTotal Int (fun a b : Int => a ≤ b) := ⟨fun a b => le_total a b⟩

instance : IsTrans Int (fun a b : Int => a ≤ b) := ⟨fun _ _ _ => le_trans⟩

lemma group_rows_core (body : List Word) (ybin : Rat) (k : Int) :
    bget (buildRows body ybin) k =
      body.filter (fun w => pyRound (w.top / ybin) = k) := by
  rw [buildRows, bget_fold (fun w => pyRound (w.top / ybin))]
  simp [bget]

/-- C9: row grouping in `_group_rows` (identical in bbva and santander)
works as described: with `body` the tokens strictly below the header line,
`avgH` the average body-token height, `ybin` equal to `0.70 * avgH` clamped
to `[2.0, 4.2]`, and `key w = round(top / ybin)` (Python's banker's
rounding), the function yields exactly one logical row per occupied bin —
each row being the body tokens of that bin in stable left-to-right (`x0`)
order — and the rows come in strictly increasing bin order (the key list is
sorted and duplicate-free, with one key exactly for every bin some body
token occupies), i.e. top-to-bottom page order. -/
theorem group_rows_spec (words : List Word) (headerY : Rat)
    (body : List Word) (hbody : body = words.filter (fun w => w.top > headerY + 1))
    (heights : List Rat) (hheights : heights = body.map (fun w => w.bottom - w.top))
    (avgH : Rat)
    (havg : avgH = if heights = [] then (8 : Rat) else heights.sum / (heights.length : Rat))
    (ybin : Rat) (hybin : ybin = max 2 (min (21/5) (avgH * (7/10))))
    (key : Word → Int) (hkey : key = fun w => pyRound (w.top / ybin))
    (ks : List Int)
    (hks : ks = List.insertionSort (fun a b : Int => a ≤ b) (bkeys (buildRows body ybin))) :
    group_rows words headerY =
      ks.map (fun k => List.insertionSort (fun a b : Word => a.x0 ≤ b.x0)
        (body.filter (fun w => key w = k))) ∧
    List.Sorted (fun a b : Int => a ≤ b) ks ∧ ks.Nodup ∧
    (∀ k : Int, k ∈ ks ↔ ∃ w ∈ body, key w = k) ∧
    (∀ r ∈ group_rows words headerY,
      List.Sorted (fun a b : Word => a.x0 ≤ b.x0) r) := by
  have hunf : group_rows words headerY =
      if body = [] then []
      else
        (List.insertionSort (fun a b : Int => a ≤ b) (bkeys (buildRows body ybin))).map
          (fun k => List.insertionSort (fun a b : Word => a.x0 ≤ b.x0)
            (bget (buildRows body ybin) k)) := by
    simp only [group_rows]
    rw [← hbody, ← hheights, ← havg, ← hybin]
  have hmain : group_rows words headerY =
      ks.map (fun k => List.insertionSort (fun a b : Word => a.x0 ≤ b.x0)
        (body.filter (fun w => key w = k))) := by
    rw [hunf, hks, hkey]
    by_cases hb : body = []
    · subst hb
      simp [buildRows, bkeys]
    · rw [if_neg hb]
      congr 1
      funext k
      congr 1
      exact group_rows_core body ybin k
  refine ⟨hmain, ?_, ?_, ?_, ?_⟩
  · rw [hks]; exact List.sorted_insertionSort _ _
  · rw [hks]
    exact (List.perm_insertionSort _ _).symm.nodup
      (nodup_bkeys_fold _ _ [] List.nodup_nil)
  · intro k
    rw [hks, List.mem_insertionSort, buildRows, mem_bkeys_fold, hkey]
    simp [bkeys]
  · intro r hr
    rw [hmain] at hr
    rcases List.mem_map.mp hr with ⟨k, hk, rfl⟩
    exact List.sorted_insertionSort _ _

/-- Witness for `group_rows_spec`: three concrete tokens (two sharing a bin,
left-to-right order initially reversed; one lower bin) group into two rows,
the shared-bin row sorted by `x0`, rows in increasing bin order. -/
theorem group_rows_spec_witness :
    group_rows [⟨"b", 5, 6, 10, 12⟩, ⟨"a", 1, 2, 10, 12⟩, ⟨"c", 1, 2, 30, 32⟩] 0 =
      [[⟨"a", 1, 2, 10, 12⟩, ⟨"b", 5, 6, 10, 12⟩], [⟨"c", 1, 2, 30, 32⟩]] := by
  have h := (group_rows_spec
    [⟨"b", 5, 6, 10, 12⟩, ⟨"a", 1, 2, 10, 12⟩, ⟨"c", 1, 2, 30, 32⟩] 0
    _ rfl _ rfl _ rfl 2 (by decide) _ rfl [5, 15] (by decide)).1
  rw [h]
  decide
